import Mathlib

/-!
Verification development for the umcp repository: a reflection-driven
JSON-RPC 2.0 server scaffold (Model Context Protocol).  The definitions
below are a shallow embedding of the introspection and dispatch engine of
src/umcp.py (class MCPServer) and src/aioumcp.py (class AsyncMCPServer):
JSON values are modelled by an inductive type, Python dictionaries by
ordered association lists, handlers (tool_* / prompt_* methods) by records
carrying their declared parameter list, resolved type hints, docstring and
implementation, and each dispatcher method by a Lean function translated
clause by clause from the Python source.  Library calls (json.loads,
logging, asyncio scheduling) are outside the embedding: parsing is
represented by an already-parsed optional JSON value, and the async
execution bridge is modelled by direct invocation, which preserves the
value-level behaviour the claims are about.
-/

namespace UMCP

/-- JSON values as decoded by json.loads: null, booleans, numbers, strings,
arrays, and objects (ordered field lists; json.loads produces dicts with
unique keys, which lookup by first match models exactly).  Numbers are
modelled as integers: the dispatcher never computes with them, and no claim
exercises float formatting. -/
inductive Json where
  | null : Json
  | bool (b : Bool) : Json
  | num (n : Int) : Json
  | str (s : String) : Json
  | arr (elems : List Json) : Json
  | obj (fields : List (String × Json)) : Json

mutual

/-- Decidable equality for the nested Json inductive (derive does not
support the nesting). -/
def decEqJson : (a b : Json) → Decidable (a = b)
  | .null, .null => isTrue rfl
  | .bool x, .bool y =>
    if h : x = y then isTrue (by rw [h]) else isFalse (fun hh => h (Json.bool.inj hh))
  | .num x, .num y =>
    if h : x = y then isTrue (by rw [h]) else isFalse (fun hh => h (Json.num.inj hh))
  | .str x, .str y =>
    if h : x = y then isTrue (by rw [h]) else isFalse (fun hh => h (Json.str.inj hh))
  | .arr xs, .arr ys =>
    match decEqJsonList xs ys with
    | isTrue h => isTrue (by rw [h])
    | isFalse h => isFalse (fun hh => h (Json.arr.inj hh))
  | .obj xs, .obj ys =>
    match decEqJsonFields xs ys with
    | isTrue h => isTrue (by rw [h])
    | isFalse h => isFalse (fun hh => h (Json.obj.inj hh))
  | .null, .bool _ => isFalse (fun h => nomatch h)
  | .null, .num _ => isFalse (fun h => nomatch h)
  | .null, .str _ => isFalse (fun h => nomatch h)
  | .null, .arr _ => isFalse (fun h => nomatch h)
  | .null, .obj _ => isFalse (fun h => nomatch h)
  | .bool _, .null => isFalse (fun h => nomatch h)
  | .bool _, .num _ => isFalse (fun h => nomatch h)
  | .bool _, .str _ => isFalse (fun h => nomatch h)
  | .bool _, .arr _ => isFalse (fun h => nomatch h)
  | .bool _, .obj _ => isFalse (fun h => nomatch h)
  | .num _, .null => isFalse (fun h => nomatch h)
  | .num _, .bool _ => isFalse (fun h => nomatch h)
  | .num _, .str _ => isFalse (fun h => nomatch h)
  | .num _, .arr _ => isFalse (fun h => nomatch h)
  | .num _, .obj _ => isFalse (fun h => nomatch h)
  | .str _, .null => isFalse (fun h => nomatch h)
  | .str _, .bool _ => isFalse (fun h => nomatch h)
  | .str _, .num _ => isFalse (fun h => nomatch h)
  | .str _, .arr _ => isFalse (fun h => nomatch h)
  | .str _, .obj _ => isFalse (fun h => nomatch h)
  | .arr _, .null => isFalse (fun h => nomatch h)
  | .arr _, .bool _ => isFalse (fun h => nomatch h)
  | .arr _, .num _ => isFalse (fun h => nomatch h)
  | .arr _, .str _ => isFalse (fun h => nomatch h)
  | .arr _, .obj _ => isFalse (fun h => nomatch h)
  | .obj _, .null => isFalse (fun h => nomatch h)
  | .obj _, .bool _ => isFalse (fun h => nomatch h)
  | .obj _, .num _ => isFalse (fun h => nomatch h)
  | .obj _, .str _ => isFalse (fun h => nomatch h)
  | .obj _, .arr _ => isFalse (fun h => nomatch h)

def decEqJsonList : (a b : List Json) → Decidable (a = b)
  | [], [] => isTrue rfl
  | [], _ :: _ => isFalse (fun h => nomatch h)
  | _ :: _, [] => isFalse (fun h => nomatch h)
  | x :: xs, y :: ys =>
    match decEqJson x y with
    | isFalse h => isFalse (fun hh => h (List.cons.inj hh).1)
    | isTrue h1 =>
      match decEqJsonList xs ys with
      | isTrue h2 => isTrue (by rw [h1, h2])
      | isFalse h2 => isFalse (fun hh => h2 (List.cons.inj hh).2)

def decEqJsonFields : (a b : List (String × Json)) → Decidable (a = b)
  | [], [] => isTrue rfl
  | [], _ :: _ => isFalse (fun h => nomatch h)
  | _ :: _, [] => isFalse (fun h => nomatch h)
  | (k1, v1) :: xs, (k2, v2) :: ys =>
    if hk : k1 = k2 then
      match decEqJson v1 v2 with
      | isFalse h => isFalse (fun hh => h (congrArg Prod.snd (List.cons.inj hh).1))
      | isTrue h1 =>
        match decEqJsonFields xs ys with
        | isTrue h2 => isTrue (by rw [hk, h1, h2])
        | isFalse h2 => isFalse (fun hh => h2 (List.cons.inj hh).2)
    else isFalse (fun hh => hk (congrArg Prod.fst (List.cons.inj hh).1))

end

instance : DecidableEq Json := decEqJson

/-- Dictionary lookup on an ordered field list (Python d[k] / k in d).
json.loads never yields duplicate keys, so first-match lookup is exact. -/
def lookupField (fields : List (String × Json)) (k : String) : Option Json :=
  match fields with
  | [] => none
  | (k2, v) :: rest => if k2 = k then some v else lookupField rest k

/-- Python dict.get(k): none when the key is absent.  The dispatcher only
applies .get to values that are dicts in every modelled code path; on a
non-object the Python code would raise AttributeError, and the theorems
below never depend on that corner. -/
def Json.get (j : Json) (k : String) : Option Json :=
  match j with
  | .obj fields => lookupField fields k
  | _ => none

/-- Python truthiness of a JSON-decoded value. -/
def Json.isTruthy : Json → Bool
  | .null => false
  | .bool b => b
  | .num n => decide (n ≠ 0)
  | .str s => decide (s ≠ "")
  | .arr elems => decide (elems ≠ [])
  | .obj fields => decide (fields ≠ [])

/-- Minimal JSON string escaping used by json.dumps (the claims never
exercise control characters). -/
def escapeString (s : String) : String :=
  String.join (s.data.map (fun c =>
    if c = '\"' then "\\\"" else if c = '\\' then "\\\\" else String.mk [c]))

mutual

/-- json.dumps with the default separators (", " and ": "). -/
def Json.dumps : Json → String
  | .null => "null"
  | .bool true => "true"
  | .bool false => "false"
  | .num n => toString n
  | .str s => "\"" ++ escapeString s ++ "\""
  | .arr elems => "[" ++ dumpsElems elems ++ "]"
  | .obj fields => "\x7b" ++ dumpsFields fields ++ "\x7d"

def dumpsElems : List Json → String
  | [] => ""
  | [x] => Json.dumps x
  | x :: y :: rest => Json.dumps x ++ ", " ++ dumpsElems (y :: rest)

def dumpsFields : List (String × Json) → String
  | [] => ""
  | [(k, v)] => "\"" ++ escapeString k ++ "\": " ++ Json.dumps v
  | (k, v) :: f :: rest => "\"" ++ escapeString k ++ "\": " ++ Json.dumps v ++ ", " ++ dumpsFields (f :: rest)

end

/-- Python str() on a JSON-decoded value, as used in f-strings and in the
content stringification fallback (str is only ever applied to non-container
values there; containers are serialized by json.dumps first). -/
def pyStr : Json → String
  | .null => "None"
  | .bool true => "True"
  | .bool false => "False"
  | .num n => toString n
  | .str s => s
  | .arr elems => Json.dumps (.arr elems)
  | .obj fields => Json.dumps (.obj fields)

/-- str() of the raw method value in the not-found log message, where the
value may be absent (Python None). -/
def pyStrOpt : Option Json → String
  | none => "None"
  | some j => pyStr j

/-! Type annotations, schema translation and signature introspection
(MCPServer._type_to_json_schema, MCPServer._extract_parameters_from_signature;
AsyncMCPServer carries byte-for-byte copies of both). -/

/-- The semantic type tags the translator can receive: the value Python
None / the class NoneType (both satisfy the first branch of the source),
the builtin scalar and container classes, typing.Union with its argument
list, subscripted List / Dict generics, and any other class (matched by no
branch). -/
inductive PyType where
  | noneType : PyType
  | strT : PyType
  | intT : PyType
  | floatT : PyType
  | boolT : PyType
  | listT : PyType
  | dictT : PyType
  | unionOf (args : List PyType) : PyType
  | listOf (elem : PyType) : PyType
  | dictOf (key value : PyType) : PyType
  | classT (name : String) : PyType

/-- A one-field schema node, the shape produced for every non-generic tag. -/
def jsonSchemaType (t : String) : Json := Json.obj [("type", Json.str t)]

/-- MCPServer._type_to_json_schema, translated branch by branch: None or
NoneType map to null; the builtin scalars and bare containers to their
JSON types; a two-element Union containing NoneType unwraps to its non-None
member (args[0] when args[1] is NoneType, else args[1]); any other Union
falls through every branch to the string default; subscripted List carries
a recursively translated items schema; subscripted Dict is a bare object;
every remaining tag defaults to string. -/
def typeToJsonSchema : PyType → Json
  | .noneType => jsonSchemaType "null"
  | .strT => jsonSchemaType "string"
  | .intT => jsonSchemaType "integer"
  | .floatT => jsonSchemaType "number"
  | .boolT => jsonSchemaType "boolean"
  | .listT => jsonSchemaType "array"
  | .dictT => jsonSchemaType "object"
  | .unionOf [a, .noneType] => typeToJsonSchema a
  | .unionOf [.noneType, b] => typeToJsonSchema b
  | .unionOf _ => jsonSchemaType "string"
  | .listOf elem => Json.obj [("type", Json.str "array"), ("items", typeToJsonSchema elem)]
  | .dictOf _ _ => jsonSchemaType "object"
  | .classT _ => jsonSchemaType "string"

/-- A declared handler parameter: its name and, when the declaration has a
default, that default value (none models inspect.Parameter.empty).  The
implicit self parameter is excluded by every consumer of the signature, so
it is never part of the list. -/
structure Param where
  name : String
  default : Option Json
  deriving DecidableEq

/-- A tool_* / prompt_* handler as the introspection engine sees it:
declared parameters (self excluded), the resolved type hints as returned by
get_type_hints after the try/except (empty when resolution raised, e.g. a
forward reference or missing import), the cleaned docstring (the empty
string models both a missing and an empty docstring, which Python
conflates through its falsiness check), the coroutine flag, and the
implementation as a function from keyword arguments to its return value
(Json.null models a Python None return). -/
structure Handler where
  params : List Param
  hints : List (String × PyType)
  doc : String
  isAsync : Bool
  impl : List (String × Json) → Json

/-- type_hints.get(param.name): absent resolves to Python None, which the
translator maps through its first branch. -/
def lookupHint (hints : List (String × PyType)) (n : String) : PyType :=
  match hints.lookup n with
  | some t => t
  | none => .noneType

/-- MCPServer._extract_parameters_from_signature: empty object for a
zero-parameter handler, else an object schema whose properties follow
declaration order and whose required list names the parameters without a
default, in declaration order, omitted when empty.  (The async copy builds
the same value; its only textual difference is returning the schema
without the redundant truthiness re-check.) -/
def extractParametersFromSignature (hints : List (String × PyType)) (params : List Param) : Json :=
  if params = [] then Json.obj []
  else
    let properties := params.map (fun p => (p.name, typeToJsonSchema (lookupHint hints p.name)))
    let required := (params.filter (fun p => p.default = none)).map (fun p => p.name)
    if required = [] then
      Json.obj [("type", Json.str "object"), ("properties", Json.obj properties)]
    else
      Json.obj [("type", Json.str "object"), ("properties", Json.obj properties),
        ("required", Json.arr (required.map Json.str))]

/-! Argument binding and the execution bridge. -/

/-- The keyword-binding loop shared verbatim by MCPServer.handle_tools_call,
AsyncMCPServer.handle_tools_call_async and
AsyncMCPServer.handle_prompt_get_async: for each declared parameter take
the caller-supplied argument when present, else the declared default, else
raise naming the parameter (the error carries the first missing parameter
in declaration order, exactly where the Python loop raises). -/
def bindArguments : List Param → List (String × Json) → Except String (List (String × Json))
  | [], _ => Except.ok []
  | p :: rest, args =>
    match lookupField args p.name with
    | some v =>
      match bindArguments rest args with
      | Except.ok kwargs => Except.ok ((p.name, v) :: kwargs)
      | Except.error e => Except.error e
    | none =>
      match p.default with
      | some d =>
        match bindArguments rest args with
        | Except.ok kwargs => Except.ok ((p.name, d) :: kwargs)
        | Except.error e => Except.error e
      | none => Except.error p.name

/-- The tool invocation block of both tools/call handlers: a zero-parameter
handler is called with no arguments (the arguments dict is never consulted),
otherwise the bound keyword set is built first and the handler is invoked
only when binding succeeded; a binding failure surfaces as the raised
message before any invocation. -/
def toolsCallCore (h : Handler) (arguments : List (String × Json)) : Except String Json :=
  if h.params = [] then Except.ok (h.impl [])
  else
    match bindArguments h.params arguments with
    | Except.ok kwargs => Except.ok (h.impl kwargs)
    | Except.error missing => Except.error missing

/-! AsyncMCPServer._extract_prompt_categories, modelled over character
lists.  The two regular expressions of the source are hand-compiled; both
require the literal tag Category/Categories (case-insensitive, modelled by
ASCII Char.toLower exactly as re.IGNORECASE behaves on this ASCII pattern). -/

/-- The characters of the regex class backslash-s, also the set stripped by
str.strip() on ASCII text. -/
def pyIsSpace (c : Char) : Bool :=
  c == ' ' || c == '\t' || c == '\n' || c == '\x0b' || c == '\x0c' || c == '\r'

/-- str.strip(): drop leading and trailing whitespace. -/
def stripChars (l : List Char) : List Char :=
  ((l.dropWhile pyIsSpace).reverse.dropWhile pyIsSpace).reverse

/-- str.lower(), per character (the extractor only ever lowercases ASCII
category tokens). -/
def lowerChars (l : List Char) : List Char := l.map Char.toLower

/-- str.split(sep) for a one-character separator: adjacent separators and
edges yield empty pieces, and the empty string yields one empty piece. -/
def splitOnChar (sep : Char) : List Char → List (List Char)
  | [] => [[]]
  | c :: rest =>
    if c = sep then [] :: splitOnChar sep rest
    else
      match splitOnChar sep rest with
      | [] => [[c]]
      | piece :: pieces => (c :: piece) :: pieces

/-- The token pipeline applied to every captured group: split on commas,
strip each piece, keep the non-empty ones, lowercase them (the source list
comprehension with its `if c.strip()` filter). -/
def splitTokens (text : List Char) : List (List Char) :=
  (splitOnChar ',' text).filterMap (fun piece =>
    let s := stripChars piece
    if s = [] then none else some (lowerChars s))

/-- Case-insensitive literal match at the head of the text (the pattern is
given lowercased). -/
def ciStartsWith : List Char → List Char → Bool
  | [], _ => true
  | _ :: _, [] => false
  | p :: ps, c :: cs => Char.toLower c = p && ciStartsWith ps cs

/-- The line pattern: optional leading whitespace, then Category: or
Categories: case-insensitively; returns the text after the colon.  The
regex tail (backslash-s* followed by a non-empty greedy group anchored at
the line end) only shifts leading whitespace out of the captured group and
rejects an empty remainder, and splitTokens strips exactly that whitespace
and yields no token from an empty or all-space remainder, so feeding the
whole post-colon text through splitTokens produces the same tokens as the
regex capture does. -/
def matchCategoryLabel (ln : List Char) : Option (List Char) :=
  let rest := ln.dropWhile pyIsSpace
  if ciStartsWith "category:".data rest then some (rest.drop 9)
  else if ciStartsWith "categories:".data rest then some (rest.drop 11)
  else none

/-- Tokens contributed by the line pattern. -/
def lineLabelTokens (ln : List Char) : List (List Char) :=
  match matchCategoryLabel ln with
  | some rest => splitTokens rest
  | none => []

/-- The body of a bracketed annotation, entered just after the tag colon:
the capture is one or more non-bracket characters followed by the closing
bracket.  Returns the captured text and the text after the closing bracket,
or none when the closing bracket is missing or immediately follows the
colon (the regex then fails at this start position).  As with the line
pattern, the leading-whitespace consumption of the regex is absorbed by
splitTokens. -/
def matchBracketBody (l : List Char) : Option (List Char × List Char) :=
  match l.dropWhile (fun c => !(c = ']')) with
  | [] => none
  | _ :: after =>
    if l.takeWhile (fun c => !(c = ']')) = [] then none
    else some (l.takeWhile (fun c => !(c = ']')), after)

/-- re.findall with the bracket pattern, scanning left to right under a
step bound: at every opening bracket whose tag matches, capture through the
closing bracket and resume after it (matches never overlap); when the
regex fails at an opening bracket, scanning resumes one character later,
exactly as the regex engine advances its start position.  Every step
consumes at least one character, so a bound of the text length (as
bracketScan supplies) is never exhausted. -/
def bracketScanAux : Nat → List Char → List (List Char)
  | 0, _ => []
  | _ + 1, [] => []
  | fuel + 1, c :: rest =>
    if c = '[' then
      if ciStartsWith "category:".data rest then
        match matchBracketBody (rest.drop 9) with
        | some (content, after) => content :: bracketScanAux fuel after
        | none => bracketScanAux fuel rest
      else if ciStartsWith "categories:".data rest then
        match matchBracketBody (rest.drop 11) with
        | some (content, after) => content :: bracketScanAux fuel after
        | none => bracketScanAux fuel rest
      else bracketScanAux fuel rest
    else bracketScanAux fuel rest

/-- re.findall with the bracket pattern over the whole line. -/
def bracketScan (l : List Char) : List (List Char) :=
  bracketScanAux l.length l

/-- All tokens one docstring line contributes, in source order: the line
pattern first, then each bracketed annotation left to right. -/
def lineCategoryTokens (ln : List Char) : List (List Char) :=
  lineLabelTokens ln ++ (bracketScan ln).flatMap splitTokens

/-- The seen-set deduplication loop: keep the first occurrence of every
token, in first-seen order. -/
def dedupFirstSeen : List (List Char) → List (List Char) → List (List Char)
  | [], _ => []
  | c :: rest, seen =>
    if c ∈ seen then dedupFirstSeen rest seen
    else c :: dedupFirstSeen rest (c :: seen)

/-- The whole extractor over an already-split line list. -/
def extractCategoriesLines (lines : List (List Char)) : List (List Char) :=
  dedupFirstSeen (lines.flatMap lineCategoryTokens) []

/-- Case-insensitive occurrence of the (lowercased) literal pattern
anywhere in the text: the disjunction of a match at every start position,
the way the regex engine scans. -/
def containsCI (pat : List Char) : List Char → Bool
  | [] => ciStartsWith pat []
  | c :: rest => ciStartsWith pat (c :: rest) || containsCI pat rest

/-- The comma-space joining of a tag list, as a docstring author writes a
label line (used to state re-extraction from a text holding exactly the
extractor's own output). -/
def joinCommaSep : List (List Char) → List Char
  | [] => []
  | [t] => t
  | t :: ts => t ++ ',' :: ' ' :: joinCommaSep ts

/-- A canonical label line carrying exactly the given tags. -/
def renderCategoriesLine (tags : List (List Char)) : List Char :=
  "categories: ".data ++ joinCommaSep tags

/-- str.splitlines() restricted to newline terminators (the only line
breaks occurring in docstrings): no lines for the empty string, and no
trailing empty line for a trailing newline. -/
def pySplitlines (l : List Char) : List (List Char) :=
  if l = [] then []
  else if l.getLast? = some '\n' then (splitOnChar '\n' l).dropLast
  else splitOnChar '\n' l

/-- AsyncMCPServer._extract_prompt_categories on the docstring. -/
def extractPromptCategories (doc : String) : List String :=
  if doc = "" then []
  else (extractCategoriesLines (pySplitlines doc.data)).map (fun cs => String.mk cs)

/-! The server instance as the registry sees it, and both dispatchers. -/

/-- A server instance: its class name, instructions, and the tool_* /
prompt_* methods keyed by the name after the prefix.  The lists model the
enumeration produced by inspect.getmembers (alphabetical by method name);
attribute lookup (hasattr / getattr) is association-list lookup. -/
structure Server where
  className : String
  instructions : String
  tools : List (String × Handler)
  prompts : List (String × Handler)

/-- MCPServer.create_error (the async copy only adds a data argument that
no call site supplies). -/
def createError (code : Int) (message : String) : Json :=
  Json.obj [("code", Json.num code), ("message", Json.str message)]

/-- MCPServer.create_response: an error envelope when an error is given,
else a result envelope; never both members. -/
def createResponseSync (requestId : Json) (result : Json) (error : Option Json) : Json :=
  match error with
  | some e => Json.obj [("jsonrpc", Json.str "2.0"), ("error", e), ("id", requestId)]
  | none => Json.obj [("jsonrpc", Json.str "2.0"), ("result", result), ("id", requestId)]

/-- AsyncMCPServer.create_response: identical member choice, different
insertion order. -/
def createResponseAsync (requestId : Json) (result : Json) (error : Option Json) : Json :=
  match error with
  | some e => Json.obj [("jsonrpc", Json.str "2.0"), ("id", requestId), ("error", e)]
  | none => Json.obj [("jsonrpc", Json.str "2.0"), ("id", requestId), ("result", result)]

/-- MCPServer.get_config. -/
def getConfigSync (s : Server) : Json :=
  Json.obj [("protocolVersion", Json.str "0.1.0"),
    ("serverInfo", Json.obj [("name", Json.str s.className), ("version", Json.str "0.1.0")]),
    ("capabilities", Json.obj [("tools", Json.obj [("listChanged", Json.bool true)])]),
    ("instructions", Json.str s.instructions)]

/-- AsyncMCPServer.get_config. -/
def getConfigAsync (s : Server) : Json :=
  Json.obj [("protocolVersion", Json.str "2025-03-26"),
    ("serverInfo", Json.obj [("name", Json.str s.className), ("version", Json.str "0.1.0")]),
    ("capabilities", Json.obj [
      ("tools", Json.obj [("listChanged", Json.bool true)]),
      ("prompts", Json.obj [("listChanged", Json.bool true), ("get", Json.bool true)])]),
    ("instructions", Json.str s.instructions)]

/-- The description fallback for tools: getdoc(method) or the synthesized
string (an absent or empty docstring is falsy). -/
def toolDoc (toolName : String) (h : Handler) : String :=
  if h.doc = "" then "Execute " ++ toolName ++ " tool" else h.doc

/-- The description fallback for prompts. -/
def promptDoc (promptName : String) (h : Handler) : String :=
  if h.doc = "" then "Prompt template " ++ promptName else h.doc

/-- MCPServer.discover_tools: one descriptor per tool_* method, carrying
the name after the prefix, the docstring (or synthesized fallback) as
description, and the extracted parameter schema. -/
def discoverToolsSync (s : Server) : Json :=
  Json.obj [("tools", Json.arr (s.tools.map (fun nh =>
    Json.obj [("name", Json.str nh.1),
      ("description", Json.str (toolDoc nh.1 nh.2)),
      ("parameters", extractParametersFromSignature nh.2.hints nh.2.params)])))]

/-- AsyncMCPServer.discover_tools: adds the coroutine flag and stores the
schema under inputSchema only when it is non-empty (truthy). -/
def discoverToolsAsync (s : Server) : Json :=
  Json.obj [("tools", Json.arr (s.tools.map (fun nh =>
    let parameters := extractParametersFromSignature nh.2.hints nh.2.params
    if parameters.isTruthy then
      Json.obj [("name", Json.str nh.1),
        ("description", Json.str (toolDoc nh.1 nh.2)),
        ("async", Json.bool nh.2.isAsync),
        ("inputSchema", parameters)]
    else
      Json.obj [("name", Json.str nh.1),
        ("description", Json.str (toolDoc nh.1 nh.2)),
        ("async", Json.bool nh.2.isAsync)])))]

/-- AsyncMCPServer.discover_prompts: name, description, inputSchema (the
schema, or the same empty object when falsy) and extracted categories. -/
def discoverPromptsAsync (s : Server) : Json :=
  Json.obj [("prompts", Json.arr (s.prompts.map (fun nh =>
    Json.obj [("name", Json.str nh.1),
      ("description", Json.str (promptDoc nh.1 nh.2)),
      ("inputSchema", extractParametersFromSignature nh.2.hints nh.2.params),
      ("categories", Json.arr ((extractPromptCategories (promptDoc nh.1 nh.2)).map Json.str))])))]

/-- params.get of the arguments member, defaulted to the empty dict when
absent (both tools/call handlers) and replaced by the empty dict when falsy
(the prompt handler's `or` — the identity on an absent or empty dict).  The
modelled domain is an absent argument member or a JSON object, the only
shapes a conforming caller sends; a non-dict truthy value would make the
Python binding loop raise, a corner no theorem below relies on. -/
def argumentFields (params : Json) : List (String × Json) :=
  match params.get "arguments" with
  | some (Json.obj fields) => fields
  | _ => []

/-- The content wrapper ending both tools/call handlers: dicts and lists
are JSON-serialized, anything else passes through str(). -/
def stringifyContent (content : Json) : String :=
  match content with
  | Json.arr elems => Json.dumps (Json.arr elems)
  | Json.obj fields => Json.dumps (Json.obj fields)
  | other => pyStr other

/-- The result body of a successful tool call. -/
def toolCallResult (content : Json) : Json :=
  Json.obj [("content", Json.arr [Json.obj [("type", Json.str "text"),
    ("text", Json.str (stringifyContent content))]])]

/-- MCPServer.handle_tools_call: the name member defaults to the empty
string, so a missing name looks up the method tool_ and (no such method
existing) reports tool-not-found -32601; a binding failure or a None
return reports -32603; success wraps the stringified content. -/
def handleToolsCallSync (s : Server) (requestId : Json) (params : Json) : Json :=
  let toolName := pyStr ((params.get "name").getD (Json.str ""))
  let args := argumentFields params
  match s.tools.lookup toolName with
  | none =>
    createResponseSync requestId Json.null (some (createError (-32601) ("Tool not found: " ++ toolName)))
  | some h =>
    match toolsCallCore h args with
    | Except.error missing =>
      createResponseSync requestId Json.null (some (createError (-32603)
        ("Tool execution error for " ++ toolName ++ ": Required parameter \x27" ++ missing ++ "\x27 is missing")))
    | Except.ok content =>
      match content with
      | Json.null =>
        createResponseSync requestId Json.null (some (createError (-32603)
          ("Tool execution error for " ++ toolName)))
      | _ => createResponseSync requestId (toolCallResult content) none

/-- AsyncMCPServer.handle_tools_call_async: a falsy name member (absent,
None or empty) reports -32602 before any lookup; the rest mirrors the sync
handler (the thread-pool offload and await are value-transparent). -/
def handleToolsCallAsync (s : Server) (requestId : Json) (params : Json) : Json :=
  let toolNameJ := (params.get "name").getD Json.null
  if toolNameJ.isTruthy = false then
    createResponseAsync requestId Json.null (some (createError (-32602) "Missing \x27name\x27 parameter"))
  else
    let toolName := pyStr toolNameJ
    match s.tools.lookup toolName with
    | none =>
      createResponseAsync requestId Json.null (some (createError (-32601) ("Tool not found: " ++ toolName)))
    | some h =>
      match toolsCallCore h (argumentFields params) with
      | Except.error missing =>
        createResponseAsync requestId Json.null (some (createError (-32603)
          ("Tool execution error for " ++ toolName ++ ": Required parameter \x27" ++ missing ++ "\x27 is missing")))
      | Except.ok content =>
        match content with
        | Json.null =>
          createResponseAsync requestId Json.null (some (createError (-32603)
            ("Tool execution error for " ++ toolName)))
        | _ => createResponseAsync requestId (toolCallResult content) none

/-- A single user-role text message (the plain-string and stringified
fallback shapes of the prompt renderer). -/
def userTextMessage (text : String) : Json :=
  Json.obj [("role", Json.str "user"), ("content", Json.obj [("type", Json.str "text"),
    ("text", Json.str text)])]

/-- The per-element check of the list branch: a dict with role and content
members. -/
def isRoleContentMessage : Json → Bool
  | .obj fields => (lookupField fields "role").isSome && (lookupField fields "content").isSome
  | _ => false

/-- The return-value classification of handle_prompt_get_async: a string
becomes one user message; a list of role/content dicts passes through; a
dict exposing a messages list is unwrapped; everything else is
JSON-stringified into one user message. -/
def promptMessagesOf (ret : Json) : List Json :=
  match ret with
  | .str t => [userTextMessage t]
  | .arr ms =>
    if ms.all isRoleContentMessage then ms
    else [userTextMessage (Json.dumps (Json.arr ms))]
  | .obj fields =>
    match lookupField fields "messages" with
    | some (Json.arr ms) => ms
    | _ => [userTextMessage (Json.dumps (Json.obj fields))]
  | other => [userTextMessage (Json.dumps other)]

/-- AsyncMCPServer.handle_prompt_get_async: a falsy name reports -32602;
an unknown prompt -32601; the result body always carries the description,
plus the extracted categories when non-empty; only when the caller
supplied a truthy arguments dict is the handler bound and invoked and a
messages array added; a binding failure reports -32603. -/
def handlePromptGetAsync (s : Server) (requestId : Json) (params : Json) : Json :=
  let promptNameJ := (params.get "name").getD Json.null
  if promptNameJ.isTruthy = false then
    createResponseAsync requestId Json.null (some (createError (-32602)
      "Missing required parameter \x27name\x27"))
  else
    let promptName := pyStr promptNameJ
    match s.prompts.lookup promptName with
    | none =>
      createResponseAsync requestId Json.null (some (createError (-32601)
        ("Prompt not found: " ++ promptName)))
    | some h =>
      let doc := promptDoc promptName h
      let args := argumentFields params
      let categories := extractPromptCategories doc
      let body :=
        if categories = [] then [("description", Json.str doc)]
        else [("description", Json.str doc), ("categories", Json.arr (categories.map Json.str))]
      if args = [] then
        createResponseAsync requestId (Json.obj body) none
      else
        match bindArguments h.params args with
        | Except.error missing =>
          createResponseAsync requestId Json.null (some (createError (-32603)
            ("Prompt execution error: Missing required argument \x27" ++ missing ++
              "\x27 for prompt " ++ promptName)))
        | Except.ok kwargs =>
          createResponseAsync requestId
            (Json.obj (body ++ [("messages", Json.arr (promptMessagesOf (h.impl kwargs)))])) none

/-- MCPServer.process_request.  The input is the outcome of json.loads:
none models a JSONDecodeError (the -32700 envelope with a null id), some
the parsed value.  A parsed non-object makes the Python attribute lookups
raise out of the dispatcher so no response is produced, modelled as none.
The version gate runs before routing, so it also applies to notifications;
only the notification branch produces no envelope. -/
def processRequestSync (s : Server) (input : Option Json) : Option Json :=
  match input with
  | none => some (createResponseSync Json.null Json.null (some (createError (-32700) "Parse error")))
  | some request =>
    match request with
    | Json.obj _ =>
      let requestId := (request.get "id").getD Json.null
      let params := (request.get "params").getD (Json.obj [])
      if request.get "jsonrpc" ≠ some (Json.str "2.0") then
        some (createResponseSync requestId Json.null (some (createError (-32600)
          "Invalid Request: Not a JSON-RPC 2.0 request")))
      else if request.get "method" = some (Json.str "initialize") then
        some (createResponseSync requestId (getConfigSync s) none)
      else if request.get "method" = some (Json.str "tools/list") then
        some (createResponseSync requestId (discoverToolsSync s) none)
      else if request.get "method" = some (Json.str "tools/call") then
        some (handleToolsCallSync s requestId params)
      else if request.get "method" = some (Json.str "notifications/initialized") then
        none
      else
        some (createResponseSync requestId Json.null (some (createError (-32601)
          ("Method not found: " ++ pyStrOpt (request.get "method")))))
    | _ => none

/-- AsyncMCPServer.process_request_async, identical routing plus the two
prompt methods. -/
def processRequestAsync (s : Server) (input : Option Json) : Option Json :=
  match input with
  | none => some (createResponseAsync Json.null Json.null (some (createError (-32700) "Parse error")))
  | some request =>
    match request with
    | Json.obj _ =>
      let requestId := (request.get "id").getD Json.null
      let params := (request.get "params").getD (Json.obj [])
      if request.get "jsonrpc" ≠ some (Json.str "2.0") then
        some (createResponseAsync requestId Json.null (some (createError (-32600)
          "Invalid Request: Not a JSON-RPC 2.0 request")))
      else if request.get "method" = some (Json.str "initialize") then
        some (createResponseAsync requestId (getConfigAsync s) none)
      else if request.get "method" = some (Json.str "tools/list") then
        some (createResponseAsync requestId (discoverToolsAsync s) none)
      else if request.get "method" = some (Json.str "tools/call") then
        some (handleToolsCallAsync s requestId params)
      else if request.get "method" = some (Json.str "prompts/list") then
        some (createResponseAsync requestId (discoverPromptsAsync s) none)
      else if request.get "method" = some (Json.str "prompts/get") then
        some (handlePromptGetAsync s requestId params)
      else if request.get "method" = some (Json.str "notifications/initialized") then
        none
      else
        some (createResponseAsync requestId Json.null (some (createError (-32601)
          ("Method not found: " ++ pyStrOpt (request.get "method")))))
    | _ => none

/-! Concrete server instances mirroring the example servers of the
repository, used to evaluate the dispatcher on concrete requests.  Tool
and prompt bodies are external collaborators (the spec scopes them out as
opaque callables); they are translated value-for-value with floats
modelled as integers, which no theorem below evaluates across. -/

/-- calculator_server.CalculatorMCPServer.tool_add. -/
def calcAdd : Handler where
  params := [⟨"a", none⟩, ⟨"b", none⟩]
  hints := [("a", .floatT), ("b", .floatT)]
  doc := "Add two numbers together.\n\nArgs:\n    a: First number\n    b: Second number\n\nReturns:\n    Result of addition operation"
  isAsync := false
  impl := fun kwargs =>
    match lookupField kwargs "a", lookupField kwargs "b" with
    | some (Json.num a), some (Json.num b) =>
      Json.obj [("operation", Json.str "addition"), ("a", Json.num a), ("b", Json.num b),
        ("result", Json.num (a + b))]
    | _, _ => Json.obj [("error", Json.str "Invalid input for addition")]

/-- calculator_server.CalculatorMCPServer.tool_subtract. -/
def calcSubtract : Handler where
  params := [⟨"a", none⟩, ⟨"b", none⟩]
  hints := [("a", .floatT), ("b", .floatT)]
  doc := "Subtract second number from first number.\n\nArgs:\n    a: First number (minuend)\n    b: Second number (subtrahend)\n\nReturns:\n    Result of subtraction operation"
  isAsync := false
  impl := fun kwargs =>
    match lookupField kwargs "a", lookupField kwargs "b" with
    | some (Json.num a), some (Json.num b) =>
      Json.obj [("operation", Json.str "subtraction"), ("a", Json.num a), ("b", Json.num b),
        ("result", Json.num (a - b))]
    | _, _ => Json.obj [("error", Json.str "Invalid input for subtraction")]

/-- calculator_server.CalculatorMCPServer.tool_multiply. -/
def calcMultiply : Handler where
  params := [⟨"a", none⟩, ⟨"b", none⟩]
  hints := [("a", .floatT), ("b", .floatT)]
  doc := "Multiply two numbers.\n\nArgs:\n    a: First number\n    b: Second number\n\nReturns:\n    Result of multiplication operation"
  isAsync := false
  impl := fun kwargs =>
    match lookupField kwargs "a", lookupField kwargs "b" with
    | some (Json.num a), some (Json.num b) =>
      Json.obj [("operation", Json.str "multiplication"), ("a", Json.num a), ("b", Json.num b),
        ("result", Json.num (a * b))]
    | _, _ => Json.obj [("error", Json.str "Invalid input for multiplication")]

/-- calculator_server.CalculatorMCPServer.tool_divide (the quotient is
modelled with integer division; no theorem evaluates it). -/
def calcDivide : Handler where
  params := [⟨"a", none⟩, ⟨"b", none⟩]
  hints := [("a", .floatT), ("b", .floatT)]
  doc := "Divide first number by second number.\n\nArgs:\n    a: Dividend\n    b: Divisor (cannot be zero)\n\nReturns:\n    Result of division operation"
  isAsync := false
  impl := fun kwargs =>
    match lookupField kwargs "a", lookupField kwargs "b" with
    | some (Json.num a), some (Json.num b) =>
      if b = 0 then Json.obj [("error", Json.str "Division by zero is not allowed")]
      else
        Json.obj [("operation", Json.str "division"), ("a", Json.num a), ("b", Json.num b),
          ("result", Json.num (a / b))]
    | _, _ => Json.obj [("error", Json.str "Invalid input for division")]

/-- calculator_server.CalculatorMCPServer: the four tool_* methods in the
alphabetical order inspect.getmembers enumerates them. -/
def calculatorServer : Server where
  className := "CalculatorMCPServer"
  instructions := "This server provides basic calculator functionality including addition, subtraction, multiplication, and division."
  tools := [("add", calcAdd), ("divide", calcDivide), ("multiply", calcMultiply),
    ("subtract", calcSubtract)]
  prompts := []

/-- tests/test_async_prompts.AsyncPromptTestServer.prompt_brainstorm. -/
def promptBrainstorm : Handler where
  params := [⟨"topic", none⟩, ⟨"ideas", some (Json.num 3)⟩]
  hints := [("topic", .strT), ("ideas", .intT)]
  doc := "Create a brainstorming prompt.\nCategories: ideation, creative\nProvide a single user message prompt body."
  isAsync := false
  impl := fun kwargs =>
    let topic := pyStr ((lookupField kwargs "topic").getD Json.null)
    let ideas := pyStr ((lookupField kwargs "ideas").getD Json.null)
    Json.str ("Brainstorm " ++ ideas ++ " innovative ideas about \x27" ++ topic ++
      "\x27. Return concise bullet points.")

/-- tests/test_async_prompts.AsyncPromptTestServer.prompt_dialog_async. -/
def promptDialogAsync : Handler where
  params := [⟨"persona", some (Json.str "assistant")⟩]
  hints := [("persona", .strT)]
  doc := "Return a list of messages (async version).\n[categories: conversation,test]\nSimulates async work while generating structured messages."
  isAsync := true
  impl := fun kwargs =>
    let persona := pyStr ((lookupField kwargs "persona").getD Json.null)
    Json.arr [
      Json.obj [("role", Json.str "system"), ("content", Json.obj [("type", Json.str "text"),
        ("text", Json.str ("You are acting as " ++ persona ++ "."))])],
      Json.obj [("role", Json.str "user"), ("content", Json.obj [("type", Json.str "text"),
        ("text", Json.str "Introduce yourself briefly.")])]]

/-- tests/test_async_prompts.AsyncPromptTestServer: no tool_* methods, two
prompt_* methods in getmembers order. -/
def asyncPromptTestServer : Server where
  className := "AsyncPromptTestServer"
  instructions := "Base MCP server with dynamic tool discovery."
  tools := []
  prompts := [("brainstorm", promptBrainstorm), ("dialog_async", promptDialogAsync)]

/-- The value the binding rule selects for one parameter: the caller
argument when present, else the declared default (the null fallback is
never reached when binding succeeds). -/
def boundValue (args : List (String × Json)) (p : Param) : Json :=
  match lookupField args p.name with
  | some v => v
  | none => p.default.getD Json.null

/-- The first line of a documentation string (what the specification calls
the first documentation line). -/
def firstLine (s : String) : String :=
  String.mk (s.data.takeWhile (fun c => !(c = '\n')))

/-- The descriptor list inside a tools/list or prompts/list result body. -/
def descriptorsOf (key : String) (body : Json) : List Json :=
  match body.get key with
  | some (Json.arr l) => l
  | _ => []

/-- The code member of the error member of a response envelope, when both
exist. -/
def errorCode (resp : Json) : Option Json :=
  match resp.get "error" with
  | some e => e.get "code"
  | none => none

/-! Theorems.  Each claim of the specification corresponds to one theorem
below (with a witness instance when the theorem carries hypotheses, and a
counterexample where the claim fails on the code). -/

/-- The seven JSON schema type names the translator can emit. -/
def schemaTypes : List String :=
  ["null", "string", "integer", "number", "boolean", "array", "object"]

theorem unionOf_single (a : PyType) :
    typeToJsonSchema (.unionOf [a]) = jsonSchemaType "string" := by
  cases a <;> rfl

theorem unionOf_pair_noneR (a : PyType) :
    typeToJsonSchema (.unionOf [a, .noneType]) = typeToJsonSchema a := by
  cases a <;> rfl

theorem unionOf_many (a b c : PyType) (rest : List PyType) :
    typeToJsonSchema (.unionOf (a :: b :: c :: rest)) = jsonSchemaType "string" := by
  cases a <;> cases b <;> rfl

theorem unionOf_pair_noneL (b : PyType) (hb : b ≠ PyType.noneType) :
    typeToJsonSchema (.unionOf [.noneType, b]) = typeToJsonSchema b := by
  cases b
  case noneType => exact absurd rfl hb
  all_goals rfl

theorem unionOf_pair_other (a b : PyType) (ha : a ≠ PyType.noneType) (hb : b ≠ PyType.noneType) :
    typeToJsonSchema (.unionOf [a, b]) = jsonSchemaType "string" := by
  cases a
  case noneType => exact absurd rfl ha
  all_goals
    cases b
    case noneType => exact absurd rfl hb
    all_goals rfl

/-- Every type tag translates to a schema node whose type member is one of
the seven JSON schema type names. -/
theorem typeField_mem : (t : PyType) →
    ∃ ty, ty ∈ schemaTypes ∧ (typeToJsonSchema t).get "type" = some (Json.str ty)
  | .noneType => ⟨"null", by decide, rfl⟩
  | .strT => ⟨"string", by decide, rfl⟩
  | .intT => ⟨"integer", by decide, rfl⟩
  | .floatT => ⟨"number", by decide, rfl⟩
  | .boolT => ⟨"boolean", by decide, rfl⟩
  | .listT => ⟨"array", by decide, rfl⟩
  | .dictT => ⟨"object", by decide, rfl⟩
  | .listOf _ => ⟨"array", by decide, rfl⟩
  | .dictOf _ _ => ⟨"object", by decide, rfl⟩
  | .classT _ => ⟨"string", by decide, rfl⟩
  | .unionOf [] => ⟨"string", by decide, rfl⟩
  | .unionOf [a] => ⟨"string", by decide, by rw [unionOf_single a]; rfl⟩
  | .unionOf [a, b] => by
    by_cases hb : b = PyType.noneType
    · subst hb
      rw [unionOf_pair_noneR a]
      exact typeField_mem a
    · by_cases ha : a = PyType.noneType
      · subst ha
        rw [unionOf_pair_noneL b hb]
        exact typeField_mem b
      · rw [unionOf_pair_other a b ha hb]
        exact ⟨"string", by decide, rfl⟩
  | .unionOf (a :: b :: c :: rest) => ⟨"string", by decide, by rw [unionOf_many a b c rest]; rfl⟩

/-- C9: the type-to-schema translation is total — every type tag yields a
schema node (with a type member among the seven JSON schema names, so it
never fails) — and every tag outside the enumerated mapping, namely any
other class and any Union that is not a two-member optional, maps to the
schema with type string. -/
theorem claim_C9_schema_translation_total :
    (∀ t : PyType, ∃ ty, ty ∈ schemaTypes ∧ (typeToJsonSchema t).get "type" = some (Json.str ty))
    ∧ (∀ name, typeToJsonSchema (.classT name) = jsonSchemaType "string")
    ∧ (∀ args : List PyType, PyType.noneType ∉ args ∨ args.length ≠ 2 →
        typeToJsonSchema (.unionOf args) = jsonSchemaType "string") := by
  refine ⟨typeField_mem, fun _ => rfl, ?_⟩
  intro args h
  match args with
  | [] => rfl
  | [a] => exact unionOf_single a
  | [a, b] =>
    rcases h with h | h
    · have ha : a ≠ PyType.noneType := fun hh => h (by rw [hh]; exact List.mem_cons_self _ _)
      have hb : b ≠ PyType.noneType := fun hh => h (by rw [hh]; simp)
      exact unionOf_pair_other a b ha hb
    · exact absurd rfl h
  | a :: b :: c :: rest => exact unionOf_many a b c rest

/-- C9 witness: the translator at concrete unmapped tags. -/
theorem claim_C9_schema_translation_total_witness :
    typeToJsonSchema (.unionOf [.intT, .strT]) = jsonSchemaType "string"
    ∧ typeToJsonSchema (.classT "Decimal") = jsonSchemaType "string" :=
  ⟨claim_C9_schema_translation_total.2.2 [.intT, .strT] (Or.inl (by simp)),
   claim_C9_schema_translation_total.2.1 "Decimal"⟩

/-- C2 (amended): signature introspection never raises — the caught
resolution failure leaves the hint table empty — but a parameter whose
annotation is unresolved or absent gets the schema fragment with type
null, not type string: the absent hint resolves to Python None, which the
translator maps through its first branch. -/
theorem claim_C2_unresolved_annotation_yields_null :
    ∀ (hints : List (String × PyType)) (params : List Param) (p : Param),
      p ∈ params → hints.lookup p.name = none →
      ∃ props, (extractParametersFromSignature hints params).get "properties"
          = some (Json.obj props)
        ∧ (p.name, jsonSchemaType "null") ∈ props := by
  intro hints params p hp hn
  have hne : params ≠ [] := by
    intro h
    rw [h] at hp
    exact absurd hp (List.not_mem_nil p)
  refine ⟨params.map (fun q => (q.name, typeToJsonSchema (lookupHint hints q.name))), ?_, ?_⟩
  · by_cases hr : ((params.filter (fun q => q.default = none)).map (fun q => q.name)) = [] <;>
      simp [extractParametersFromSignature, hne, hr, Json.get, lookupField]
  · refine List.mem_map.mpr ⟨p, hp, ?_⟩
    simp [lookupHint, hn, typeToJsonSchema]

/-- C2 counterexample: a single parameter with an unresolvable annotation
(empty hint table) is given the null schema, which differs from the string
schema the claim asserts. -/
theorem claim_C2_null_not_string_counterexample :
    (extractParametersFromSignature [] [⟨"x", none⟩]).get "properties"
      = some (Json.obj [("x", jsonSchemaType "null")])
    ∧ jsonSchemaType "null" ≠ jsonSchemaType "string" :=
  ⟨rfl, by decide⟩

/-- C2 witness: the amended theorem applied to that same parameter. -/
theorem claim_C2_unresolved_annotation_witness :
    ∃ props, (extractParametersFromSignature [] [⟨"x", none⟩]).get "properties"
        = some (Json.obj props)
      ∧ ("x", jsonSchemaType "null") ∈ props :=
  claim_C2_unresolved_annotation_yields_null [] [⟨"x", none⟩] ⟨"x", none⟩
    (List.mem_cons_self _ _) rfl

/-- C6 (amended): every discovered tool or prompt descriptor carries as its
description the handler docstring in full (not only its first line), or the
synthesized fallback string when the docstring is absent. -/
theorem claim_C6_descriptions_are_full_docstrings :
    (∀ (s : Server) (nm : String) (h : Handler), (nm, h) ∈ s.tools →
      ∃ d ∈ descriptorsOf "tools" (discoverToolsSync s),
        d.get "name" = some (Json.str nm) ∧
        d.get "description"
          = some (Json.str (if h.doc = "" then "Execute " ++ nm ++ " tool" else h.doc)))
    ∧ (∀ (s : Server) (nm : String) (h : Handler), (nm, h) ∈ s.tools →
      ∃ d ∈ descriptorsOf "tools" (discoverToolsAsync s),
        d.get "name" = some (Json.str nm) ∧
        d.get "description"
          = some (Json.str (if h.doc = "" then "Execute " ++ nm ++ " tool" else h.doc)))
    ∧ (∀ (s : Server) (nm : String) (h : Handler), (nm, h) ∈ s.prompts →
      ∃ d ∈ descriptorsOf "prompts" (discoverPromptsAsync s),
        d.get "name" = some (Json.str nm) ∧
        d.get "description"
          = some (Json.str (if h.doc = "" then "Prompt template " ++ nm else h.doc))) := by
  refine ⟨?_, ?_, ?_⟩
  · intro s nm h hmem
    refine ⟨Json.obj [("name", Json.str nm), ("description", Json.str (toolDoc nm h)),
      ("parameters", extractParametersFromSignature h.hints h.params)], ?_, rfl, ?_⟩
    · have := List.mem_map_of_mem (fun nh : String × Handler =>
        Json.obj [("name", Json.str nh.1), ("description", Json.str (toolDoc nh.1 nh.2)),
          ("parameters", extractParametersFromSignature nh.2.hints nh.2.params)]) hmem
      simpa [descriptorsOf, discoverToolsSync, Json.get, lookupField] using this
    · simp [Json.get, lookupField, toolDoc]
  · intro s nm h hmem
    by_cases hs : (extractParametersFromSignature h.hints h.params).isTruthy
    · refine ⟨Json.obj [("name", Json.str nm), ("description", Json.str (toolDoc nm h)),
        ("async", Json.bool h.isAsync),
        ("inputSchema", extractParametersFromSignature h.hints h.params)], ?_, rfl, ?_⟩
      · have := List.mem_map_of_mem (fun nh : String × Handler =>
          if (extractParametersFromSignature nh.2.hints nh.2.params).isTruthy then
            Json.obj [("name", Json.str nh.1), ("description", Json.str (toolDoc nh.1 nh.2)),
              ("async", Json.bool nh.2.isAsync),
              ("inputSchema", extractParametersFromSignature nh.2.hints nh.2.params)]
          else
            Json.obj [("name", Json.str nh.1), ("description", Json.str (toolDoc nh.1 nh.2)),
              ("async", Json.bool nh.2.isAsync)]) hmem
        simpa [descriptorsOf, discoverToolsAsync, Json.get, lookupField, hs] using this
      · simp [Json.get, lookupField, toolDoc]
    · refine ⟨Json.obj [("name", Json.str nm), ("description", Json.str (toolDoc nm h)),
        ("async", Json.bool h.isAsync)], ?_, rfl, ?_⟩
      · have := List.mem_map_of_mem (fun nh : String × Handler =>
          if (extractParametersFromSignature nh.2.hints nh.2.params).isTruthy then
            Json.obj [("name", Json.str nh.1), ("description", Json.str (toolDoc nh.1 nh.2)),
              ("async", Json.bool nh.2.isAsync),
              ("inputSchema", extractParametersFromSignature nh.2.hints nh.2.params)]
          else
            Json.obj [("name", Json.str nh.1), ("description", Json.str (toolDoc nh.1 nh.2)),
              ("async", Json.bool nh.2.isAsync)]) hmem
        simpa [descriptorsOf, discoverToolsAsync, Json.get, lookupField, hs] using this
      · simp [Json.get, lookupField, toolDoc]
  · intro s nm h hmem
    refine ⟨Json.obj [("name", Json.str nm), ("description", Json.str (promptDoc nm h)),
      ("inputSchema", extractParametersFromSignature h.hints h.params),
      ("categories", Json.arr ((extractPromptCategories (promptDoc nm h)).map Json.str))],
      ?_, rfl, ?_⟩
    · have := List.mem_map_of_mem (fun nh : String × Handler =>
        Json.obj [("name", Json.str nh.1), ("description", Json.str (promptDoc nh.1 nh.2)),
          ("inputSchema", extractParametersFromSignature nh.2.hints nh.2.params),
          ("categories", Json.arr ((extractPromptCategories (promptDoc nh.1 nh.2)).map Json.str))])
        hmem
      simpa [descriptorsOf, discoverPromptsAsync, Json.get, lookupField] using this
    · simp [Json.get, lookupField, promptDoc]

/-- C6 counterexample: the discovered descriptor of tool_add carries the
whole multi-line docstring, which is not its first line. -/
theorem claim_C6_first_line_counterexample :
    ((descriptorsOf "tools" (discoverToolsSync calculatorServer)).head?.bind
      (fun d => d.get "description")) = some (Json.str calcAdd.doc)
    ∧ calcAdd.doc ≠ firstLine calcAdd.doc :=
  ⟨rfl, by decide⟩

/-- C6 witness: the amended theorem applied to tool_add of the calculator
server and to prompt_brainstorm of the async prompt test server. -/
theorem claim_C6_descriptions_witness :
    (∃ d ∈ descriptorsOf "tools" (discoverToolsSync calculatorServer),
      d.get "name" = some (Json.str "add") ∧
      d.get "description"
        = some (Json.str (if calcAdd.doc = "" then "Execute " ++ "add" ++ " tool" else calcAdd.doc)))
    ∧ (∃ d ∈ descriptorsOf "prompts" (discoverPromptsAsync asyncPromptTestServer),
      d.get "name" = some (Json.str "brainstorm") ∧
      d.get "description"
        = some (Json.str (if promptBrainstorm.doc = "" then "Prompt template " ++ "brainstorm"
            else promptBrainstorm.doc))) :=
  ⟨claim_C6_descriptions_are_full_docstrings.1 calculatorServer "add" calcAdd
    (List.mem_cons_self _ _),
   claim_C6_descriptions_are_full_docstrings.2.2 asyncPromptTestServer "brainstorm"
    promptBrainstorm (List.mem_cons_self _ _)⟩

/-- C3: the binding rule — a successful binding maps every declared
parameter, in declaration order, to the caller value when present else the
declared default; success requires every caller-unsupplied parameter to
have a default; a failure names a declared parameter that has neither a
caller value nor a default; and a failed binding makes the call fail with
that name for every possible handler implementation, so the handler is
never invoked with an incomplete argument set. -/
theorem claim_C3_binding_rule :
    (∀ (params : List Param) (args kwargs : List (String × Json)),
      bindArguments params args = Except.ok kwargs →
        kwargs = params.map (fun p => (p.name, boundValue args p))
        ∧ ∀ p ∈ params, lookupField args p.name = none → p.default ≠ none)
    ∧ (∀ (params : List Param) (args : List (String × Json)) (e : String),
      bindArguments params args = Except.error e →
        ∃ p ∈ params, p.name = e ∧ lookupField args p.name = none ∧ p.default = none)
    ∧ (∀ (params : List Param) (hints : List (String × PyType)) (doc : String)
        (hasync : Bool) (impl : List (String × Json) → Json)
        (args : List (String × Json)) (e : String),
      bindArguments params args = Except.error e →
        toolsCallCore ⟨params, hints, doc, hasync, impl⟩ args = Except.error e) := by
  refine ⟨?_, ?_, ?_⟩
  · intro params
    induction params with
    | nil =>
      intro args kwargs h
      simp only [bindArguments] at h
      cases h
      exact ⟨rfl, by intro p hp; exact absurd hp (List.not_mem_nil p)⟩
    | cons p rest ih =>
      intro args kwargs h
      simp only [bindArguments] at h
      rcases hl : lookupField args p.name with _ | v <;> rw [hl] at h
      · rcases hd : p.default with _ | d <;> rw [hd] at h
        · exact absurd h (by simp)
        · rcases hrec : bindArguments rest args with e | k <;> rw [hrec] at h
          · exact absurd h (by simp)
          · cases h
            obtain ⟨hmap, hreq⟩ := ih args k hrec
            refine ⟨?_, ?_⟩
            · simp only [List.map_cons, boundValue, hl, hd, hmap, Option.getD_some]
            · intro q hq hlq
              rcases List.mem_cons.mp hq with hq | hq
              · subst hq; rw [hd]; exact Option.noConfusion
              · exact hreq q hq hlq
      · rcases hrec : bindArguments rest args with e | k <;> rw [hrec] at h
        · exact absurd h (by simp)
        · cases h
          obtain ⟨hmap, hreq⟩ := ih args k hrec
          refine ⟨?_, ?_⟩
          · simp only [List.map_cons, boundValue, hl, hmap]
          · intro q hq hlq
            rcases List.mem_cons.mp hq with hq | hq
            · subst hq; rw [hl] at hlq; exact absurd hlq (by simp)
            · exact hreq q hq hlq
  · intro params
    induction params with
    | nil =>
      intro args e h
      simp only [bindArguments] at h
      exact absurd h (by simp)
    | cons p rest ih =>
      intro args e h
      simp only [bindArguments] at h
      rcases hl : lookupField args p.name with _ | v <;> rw [hl] at h
      · rcases hd : p.default with _ | d <;> rw [hd] at h
        · cases h
          exact ⟨p, List.mem_cons_self _ _, rfl, hl, hd⟩
        · rcases hrec : bindArguments rest args with e2 | k <;> rw [hrec] at h
          · cases h
            obtain ⟨q, hq, hqe⟩ := ih args e hrec
            exact ⟨q, List.mem_cons_of_mem _ hq, hqe⟩
          · exact absurd h (by simp)
      · rcases hrec : bindArguments rest args with e2 | k <;> rw [hrec] at h
        · cases h
          obtain ⟨q, hq, hqe⟩ := ih args e hrec
          exact ⟨q, List.mem_cons_of_mem _ hq, hqe⟩
        · exact absurd h (by simp)
  · intro params hints doc hasync impl args e h
    have hne : params ≠ [] := by
      intro hp
      rw [hp] at h
      simp only [bindArguments] at h
      exact absurd h (by simp)
    simp only [toolsCallCore, hne, if_false, h]

/-- C3 witness: the binding rule at tool_add of the calculator server —
supplying only a yields the error naming b before any invocation, and
supplying both binds both in declaration order. -/
theorem claim_C3_binding_rule_witness :
    ([("a", Json.num 10), ("b", Json.num 5)] : List (String × Json))
      = calcAdd.params.map
          (fun p => (p.name, boundValue [("a", Json.num 10), ("b", Json.num 5)] p))
    ∧ (∃ p ∈ calcAdd.params, p.name = "b"
        ∧ lookupField [("a", Json.num 10)] p.name = none ∧ p.default = none)
    ∧ toolsCallCore calcAdd [("a", Json.num 10)] = Except.error "b" :=
  ⟨(claim_C3_binding_rule.1 calcAdd.params [("a", Json.num 10), ("b", Json.num 5)]
      [("a", Json.num 10), ("b", Json.num 5)] rfl).1,
   claim_C3_binding_rule.2.1 calcAdd.params [("a", Json.num 10)] "b" rfl,
   claim_C3_binding_rule.2.2 calcAdd.params calcAdd.hints calcAdd.doc calcAdd.isAsync
     calcAdd.impl [("a", Json.num 10)] "b" rfl⟩

/-- C1 (amended): the async tools/call handler reports -32602 for a
missing name and -32601 for a supplied name matching no registered tool;
the sync tools/call handler substitutes the empty string for a missing
name, so it reports -32601 (tool not found) whenever no tool is registered
under the empty name, and likewise -32601 for an unknown supplied name. -/
theorem claim_C1_tools_call_name_errors :
    (∀ (s : Server) (rid params : Json), params.get "name" = none →
      handleToolsCallAsync s rid params
        = createResponseAsync rid Json.null
            (some (createError (-32602) "Missing \x27name\x27 parameter")))
    ∧ (∀ (s : Server) (rid params : Json) (n : String),
      params.get "name" = some (Json.str n) → n ≠ "" → s.tools.lookup n = none →
      handleToolsCallAsync s rid params
        = createResponseAsync rid Json.null
            (some (createError (-32601) ("Tool not found: " ++ n))))
    ∧ (∀ (s : Server) (rid params : Json), params.get "name" = none →
      s.tools.lookup "" = none →
      handleToolsCallSync s rid params
        = createResponseSync rid Json.null
            (some (createError (-32601) "Tool not found: ")))
    ∧ (∀ (s : Server) (rid params : Json) (n : String),
      params.get "name" = some (Json.str n) → s.tools.lookup n = none →
      handleToolsCallSync s rid params
        = createResponseSync rid Json.null
            (some (createError (-32601) ("Tool not found: " ++ n)))) := by
  refine ⟨?_, ?_, ?_, ?_⟩
  · intro s rid params h
    simp [handleToolsCallAsync, h, Json.isTruthy]
  · intro s rid params n h hne hlu
    simp [handleToolsCallAsync, h, Json.isTruthy, hne, pyStr, hlu]
  · intro s rid params h hlu
    have : ("Tool not found: " ++ "" : String) = "Tool not found: " := rfl
    simp [handleToolsCallSync, h, pyStr, hlu, this]
  · intro s rid params n h hlu
    simp [handleToolsCallSync, h, pyStr, hlu]

/-- C1 counterexample: a tools/call request without a name against the
sync dispatcher yields error code -32601, not the -32602 the claim
asserts. -/
theorem claim_C1_sync_missing_name_counterexample :
    ((processRequestSync calculatorServer (some (Json.obj [("jsonrpc", Json.str "2.0"),
        ("id", Json.num 1), ("method", Json.str "tools/call"),
        ("params", Json.obj [])]))).bind errorCode)
      = some (Json.num (-32601))
    ∧ some (Json.num (-32601)) ≠ some (Json.num (-32602)) :=
  ⟨rfl, by decide⟩

/-- C1 witness: the amended theorem at concrete requests — missing name on
async, unknown name on async, missing name on sync. -/
theorem claim_C1_tools_call_name_errors_witness :
    handleToolsCallAsync asyncPromptTestServer (Json.num 3) (Json.obj [])
      = createResponseAsync (Json.num 3) Json.null
          (some (createError (-32602) "Missing \x27name\x27 parameter"))
    ∧ handleToolsCallAsync calculatorServer (Json.num 4)
        (Json.obj [("name", Json.str "nope")])
      = createResponseAsync (Json.num 4) Json.null
          (some (createError (-32601) ("Tool not found: " ++ "nope")))
    ∧ handleToolsCallSync calculatorServer (Json.num 5) (Json.obj [])
      = createResponseSync (Json.num 5) Json.null
          (some (createError (-32601) "Tool not found: ")) :=
  ⟨claim_C1_tools_call_name_errors.1 asyncPromptTestServer (Json.num 3) (Json.obj []) rfl,
   claim_C1_tools_call_name_errors.2.1 calculatorServer (Json.num 4)
     (Json.obj [("name", Json.str "nope")]) "nope" rfl (by decide) rfl,
   claim_C1_tools_call_name_errors.2.2.1 calculatorServer (Json.num 5) (Json.obj []) rfl rfl⟩

/-- C4 (amended): a notifications/initialized request that passes the
version gate (jsonrpc equal to "2.0") produces no response envelope at
all, in both dispatchers; the version check precedes routing, so without
it the request is answered with a -32600 error envelope instead. -/
theorem claim_C4_notifications_produce_no_response :
    ∀ (s : Server) (req : Json),
      req.get "jsonrpc" = some (Json.str "2.0") →
      req.get "method" = some (Json.str "notifications/initialized") →
      processRequestSync s (some req) = none ∧ processRequestAsync s (some req) = none := by
  intro s req h1 h2
  cases req <;> simp_all [Json.get]
  constructor
  · simp [processRequestSync, Json.get, h1, h2]
  · simp [processRequestAsync, Json.get, h1, h2]

/-- C4 counterexample: the same notification without the version member is
answered with a -32600 error envelope, so the dispatcher does produce a
response for a notifications/initialized request. -/
theorem claim_C4_version_gate_counterexample :
    processRequestSync calculatorServer
        (some (Json.obj [("method", Json.str "notifications/initialized")]))
      = some (createResponseSync Json.null Json.null (some (createError (-32600)
          "Invalid Request: Not a JSON-RPC 2.0 request")))
    ∧ processRequestSync calculatorServer
        (some (Json.obj [("method", Json.str "notifications/initialized")])) ≠ none :=
  ⟨rfl, by decide⟩

/-- C4 witness: the amended theorem at a well-versioned notification, on
both dispatchers. -/
theorem claim_C4_notifications_witness :
    processRequestSync calculatorServer (some (Json.obj [("jsonrpc", Json.str "2.0"),
      ("method", Json.str "notifications/initialized")])) = none
    ∧ processRequestAsync asyncPromptTestServer (some (Json.obj [("jsonrpc", Json.str "2.0"),
      ("method", Json.str "notifications/initialized")])) = none :=
  ⟨(claim_C4_notifications_produce_no_response calculatorServer
      (Json.obj [("jsonrpc", Json.str "2.0"),
        ("method", Json.str "notifications/initialized")]) rfl rfl).1,
   (claim_C4_notifications_produce_no_response asyncPromptTestServer
      (Json.obj [("jsonrpc", Json.str "2.0"),
        ("method", Json.str "notifications/initialized")]) rfl rfl).2⟩

theorem bindArguments_extra_arg (params : List Param) (args : List (String × Json))
    (k : String) (v : Json) (hk : ∀ p ∈ params, p.name ≠ k) :
    bindArguments params ((k, v) :: args) = bindArguments params args := by
  induction params with
  | nil => rfl
  | cons p rest ih =>
    have hpk : ¬(k = p.name) := fun h => (hk p (List.mem_cons_self _ _)) h.symm
    have ihr := ih (fun q hq => hk q (List.mem_cons_of_mem _ hq))
    simp only [bindArguments, lookupField, if_neg hpk, ihr]

theorem toolsCallCore_extra_arg (h : Handler) (args : List (String × Json))
    (k : String) (v : Json) (hk : ∀ p ∈ h.params, p.name ≠ k) :
    toolsCallCore h ((k, v) :: args) = toolsCallCore h args := by
  unfold toolsCallCore
  by_cases hp : h.params = []
  · simp [hp]
  · simp [hp, bindArguments_extra_arg h.params args k v hk]

/-- C10 (amended): an argument entry whose key matches no declared
parameter of the resolved handler is never passed to the handler and never
causes an error — binding ignores it, and both tools/call handlers produce
the identical outcome with or without it; for prompts/get the outcome is
also identical provided the arguments map contains at least one other
entry, but an unknown entry that is the only entry makes the arguments map
truthy and switches the call from the describe-only path to the render
path, so there the outcome differs. -/
theorem claim_C10_unknown_arguments_ignored :
    (∀ (params : List Param) (args : List (String × Json)) (k : String) (v : Json),
      (∀ p ∈ params, p.name ≠ k) →
      bindArguments params ((k, v) :: args) = bindArguments params args)
    ∧ (∀ (s : Server) (rid nm : Json) (args : List (String × Json)) (k : String) (v : Json),
      (∀ h, s.tools.lookup (pyStr nm) = some h → ∀ p ∈ h.params, p.name ≠ k) →
      handleToolsCallSync s rid
          (Json.obj [("name", nm), ("arguments", Json.obj ((k, v) :: args))])
        = handleToolsCallSync s rid (Json.obj [("name", nm), ("arguments", Json.obj args)])
      ∧ handleToolsCallAsync s rid
          (Json.obj [("name", nm), ("arguments", Json.obj ((k, v) :: args))])
        = handleToolsCallAsync s rid (Json.obj [("name", nm), ("arguments", Json.obj args)]))
    ∧ (∀ (s : Server) (rid nm : Json) (args : List (String × Json)) (k : String) (v : Json),
      args ≠ [] →
      (∀ h, s.prompts.lookup (pyStr nm) = some h → ∀ p ∈ h.params, p.name ≠ k) →
      handlePromptGetAsync s rid
          (Json.obj [("name", nm), ("arguments", Json.obj ((k, v) :: args))])
        = handlePromptGetAsync s rid
            (Json.obj [("name", nm), ("arguments", Json.obj args)])) := by
  refine ⟨bindArguments_extra_arg, ?_, ?_⟩
  · intro s rid nm args k v hk
    constructor
    · simp only [handleToolsCallSync, Json.get, lookupField, argumentFields,
        if_neg (show ¬("name" = "arguments") from by decide), if_true, Option.getD_some]
      cases hlu : s.tools.lookup (pyStr nm) with
      | none => rfl
      | some h =>
        simp only [toolsCallCore_extra_arg h args k v (hk h hlu)]
    · simp only [handleToolsCallAsync, Json.get, lookupField, argumentFields,
        if_neg (show ¬("name" = "arguments") from by decide), if_true, Option.getD_some]
      by_cases ht : nm.isTruthy = false
      · simp only [ht, if_true]
      · simp only [ht, if_false]
        cases hlu : s.tools.lookup (pyStr nm) with
        | none => rfl
        | some h =>
          simp only [toolsCallCore_extra_arg h args k v (hk h hlu)]
  · intro s rid nm args k v hne hk
    simp only [handlePromptGetAsync, Json.get, lookupField, argumentFields,
      if_neg (show ¬("name" = "arguments") from by decide), if_true, Option.getD_some]
    by_cases ht : nm.isTruthy = false
    · simp only [ht, if_true]
    · simp only [ht, if_false]
      cases hlu : s.prompts.lookup (pyStr nm) with
      | none => rfl
      | some h =>
        simp only [if_neg (List.cons_ne_nil (k, v) args), if_neg hne,
          bindArguments_extra_arg h.params args k v (hk h hlu)]

/-- C10 counterexample: against the async prompt test server, a
prompts/get for dialog_async (all of whose parameters have defaults) with
an arguments map holding only an unknown key renders the prompt, while the
same call without that entry takes the describe-only path, so the outcome
differs. -/
theorem claim_C10_lone_unknown_argument_counterexample :
    handlePromptGetAsync asyncPromptTestServer (Json.num 7)
        (Json.obj [("name", Json.str "dialog_async"),
          ("arguments", Json.obj [("junk", Json.num 1)])])
      ≠ handlePromptGetAsync asyncPromptTestServer (Json.num 7)
        (Json.obj [("name", Json.str "dialog_async")]) := by
  decide

/-- C10 witness: the amended theorem at concrete calls — an unknown extra
argument alongside the declared ones changes nothing, for a tool call and
for a prompt call. -/
theorem claim_C10_unknown_arguments_witness :
    handleToolsCallSync calculatorServer (Json.num 1)
        (Json.obj [("name", Json.str "add"),
          ("arguments", Json.obj [("junk", Json.num 9), ("a", Json.num 10), ("b", Json.num 5)])])
      = handleToolsCallSync calculatorServer (Json.num 1)
        (Json.obj [("name", Json.str "add"),
          ("arguments", Json.obj [("a", Json.num 10), ("b", Json.num 5)])])
    ∧ handlePromptGetAsync asyncPromptTestServer (Json.num 2)
        (Json.obj [("name", Json.str "brainstorm"),
          ("arguments", Json.obj [("junk", Json.num 9), ("topic", Json.str "tea")])])
      = handlePromptGetAsync asyncPromptTestServer (Json.num 2)
        (Json.obj [("name", Json.str "brainstorm"),
          ("arguments", Json.obj [("topic", Json.str "tea")])]) :=
  ⟨(claim_C10_unknown_arguments_ignored.2.1 calculatorServer (Json.num 1) (Json.str "add")
      [("a", Json.num 10), ("b", Json.num 5)] "junk" (Json.num 9)
      (fun h hh => by
        injection hh with hh2
        subst hh2
        decide)).1,
   claim_C10_unknown_arguments_ignored.2.2 asyncPromptTestServer (Json.num 2)
      (Json.str "brainstorm") [("topic", Json.str "tea")] "junk" (Json.num 9)
      (by decide)
      (fun h hh => by
        injection hh with hh2
        subst hh2
        decide)⟩

/-- C7: prompts/get on a registered prompt — with no supplied arguments
(the member absent or the empty object) the result carries the description
and no messages key; with a non-empty arguments object whose binding
succeeds the result carries a messages array derived from the return
value; and a plain string return becomes exactly one user-role text
message. -/
theorem claim_C7_prompt_get_describe_and_render :
    (∀ (s : Server) (rid params : Json) (nm : String) (h : Handler),
      params.get "name" = some (Json.str nm) → nm ≠ "" →
      s.prompts.lookup nm = some h →
      (params.get "arguments" = none ∨ params.get "arguments" = some (Json.obj [])) →
      ∃ body, handlePromptGetAsync s rid params = createResponseAsync rid (Json.obj body) none
        ∧ lookupField body "description" = some (Json.str (promptDoc nm h))
        ∧ lookupField body "messages" = none)
    ∧ (∀ (s : Server) (rid params : Json) (nm : String) (h : Handler)
        (argFields kwargs : List (String × Json)),
      params.get "name" = some (Json.str nm) → nm ≠ "" →
      s.prompts.lookup nm = some h →
      params.get "arguments" = some (Json.obj argFields) → argFields ≠ [] →
      bindArguments h.params argFields = Except.ok kwargs →
      ∃ body, handlePromptGetAsync s rid params = createResponseAsync rid (Json.obj body) none
        ∧ lookupField body "description" = some (Json.str (promptDoc nm h))
        ∧ lookupField body "messages" = some (Json.arr (promptMessagesOf (h.impl kwargs))))
    ∧ (∀ t : String, promptMessagesOf (Json.str t) = [userTextMessage t]) := by
  refine ⟨?_, ?_, fun t => rfl⟩
  · intro s rid params nm h hname hnm hlu harg
    have hargs : argumentFields params = [] := by
      rcases harg with ha | ha <;> simp [argumentFields, ha]
    have htr : (Json.str nm).isTruthy = true := by
      simp [Json.isTruthy, hnm]
    simp only [handlePromptGetAsync, hname, Option.getD_some, htr, Bool.true_eq_false,
      if_false, pyStr, hlu, hargs, if_true]
    by_cases hc : extractPromptCategories (promptDoc nm h) = []
    · exact ⟨[("description", Json.str (promptDoc nm h))], by simp [hc], rfl, rfl⟩
    · exact ⟨[("description", Json.str (promptDoc nm h)),
        ("categories", Json.arr ((extractPromptCategories (promptDoc nm h)).map Json.str))],
        by simp [hc], rfl, rfl⟩
  · intro s rid params nm h argFields kwargs hname hnm hlu harg hne hbind
    have hargs : argumentFields params = argFields := by
      simp [argumentFields, harg]
    have htr : (Json.str nm).isTruthy = true := by
      simp [Json.isTruthy, hnm]
    simp only [handlePromptGetAsync, hname, Option.getD_some, htr, Bool.true_eq_false,
      if_false, pyStr, hlu, hargs, if_neg hne, hbind]
    by_cases hc : extractPromptCategories (promptDoc nm h) = []
    · exact ⟨[("description", Json.str (promptDoc nm h)),
        ("messages", Json.arr (promptMessagesOf (h.impl kwargs)))],
        by simp [hc], rfl, rfl⟩
    · exact ⟨[("description", Json.str (promptDoc nm h)),
        ("categories", Json.arr ((extractPromptCategories (promptDoc nm h)).map Json.str)),
        ("messages", Json.arr (promptMessagesOf (h.impl kwargs)))],
        by simp [hc], rfl, rfl⟩

/-- C7 witness: prompt_brainstorm described without arguments and rendered
with a topic argument (a string return becoming one user message). -/
theorem claim_C7_prompt_get_witness :
    (∃ body, handlePromptGetAsync asyncPromptTestServer (Json.num 1)
        (Json.obj [("name", Json.str "brainstorm")])
        = createResponseAsync (Json.num 1) (Json.obj body) none
      ∧ lookupField body "description" = some (Json.str (promptDoc "brainstorm" promptBrainstorm))
      ∧ lookupField body "messages" = none)
    ∧ (∃ body, handlePromptGetAsync asyncPromptTestServer (Json.num 2)
        (Json.obj [("name", Json.str "brainstorm"),
          ("arguments", Json.obj [("topic", Json.str "tea")])])
        = createResponseAsync (Json.num 2) (Json.obj body) none
      ∧ lookupField body "description" = some (Json.str (promptDoc "brainstorm" promptBrainstorm))
      ∧ lookupField body "messages" = some (Json.arr (promptMessagesOf
          (promptBrainstorm.impl [("topic", Json.str "tea"), ("ideas", Json.num 3)])))) :=
  ⟨claim_C7_prompt_get_describe_and_render.1 asyncPromptTestServer (Json.num 1)
      (Json.obj [("name", Json.str "brainstorm")]) "brainstorm" promptBrainstorm
      rfl (by decide) rfl (Or.inl rfl),
   claim_C7_prompt_get_describe_and_render.2.1 asyncPromptTestServer (Json.num 2)
      (Json.obj [("name", Json.str "brainstorm"),
        ("arguments", Json.obj [("topic", Json.str "tea")])]) "brainstorm" promptBrainstorm
      [("topic", Json.str "tea")] [("topic", Json.str "tea"), ("ideas", Json.num 3)]
      rfl (by decide) rfl rfl (by decide) rfl⟩

theorem createResponseSync_shape (rid result : Json) (err : Option Json) :
    (((createResponseSync rid result err).get "result").isSome
        ∧ (createResponseSync rid result err).get "error" = none
      ∨ ((createResponseSync rid result err).get "error").isSome
        ∧ (createResponseSync rid result err).get "result" = none)
    ∧ (createResponseSync rid result err).get "id" = some rid := by
  cases err <;> simp [createResponseSync, Json.get, lookupField]

theorem createResponseAsync_shape (rid result : Json) (err : Option Json) :
    (((createResponseAsync rid result err).get "result").isSome
        ∧ (createResponseAsync rid result err).get "error" = none
      ∨ ((createResponseAsync rid result err).get "error").isSome
        ∧ (createResponseAsync rid result err).get "result" = none)
    ∧ (createResponseAsync rid result err).get "id" = some rid := by
  cases err <;> simp [createResponseAsync, Json.get, lookupField]

theorem handleToolsCallSync_is_response (s : Server) (rid params : Json) :
    ∃ r e, handleToolsCallSync s rid params = createResponseSync rid r e := by
  unfold handleToolsCallSync
  dsimp only
  repeat' split
  all_goals exact ⟨_, _, rfl⟩

theorem handleToolsCallAsync_is_response (s : Server) (rid params : Json) :
    ∃ r e, handleToolsCallAsync s rid params = createResponseAsync rid r e := by
  unfold handleToolsCallAsync
  dsimp only
  repeat' split
  all_goals exact ⟨_, _, rfl⟩

theorem handlePromptGetAsync_is_response (s : Server) (rid params : Json) :
    ∃ r e, handlePromptGetAsync s rid params = createResponseAsync rid r e := by
  unfold handlePromptGetAsync
  dsimp only
  repeat' split
  all_goals exact ⟨_, _, rfl⟩

/-- C5: every response either dispatcher emits carries exactly one of the
result and error members, echoes the request id (null when the id member
is absent), and unparseable input is answered with a null id and error
code -32700. -/
theorem claim_C5_envelope_invariant :
    (∀ (s : Server) (input : Option Json) (resp : Json),
      processRequestSync s input = some resp →
      (((resp.get "result").isSome ∧ resp.get "error" = none)
        ∨ ((resp.get "error").isSome ∧ resp.get "result" = none))
      ∧ resp.get "id" = some (match input with
          | none => Json.null
          | some req => (req.get "id").getD Json.null)
      ∧ (input = none → errorCode resp = some (Json.num (-32700))))
    ∧ (∀ (s : Server) (input : Option Json) (resp : Json),
      processRequestAsync s input = some resp →
      (((resp.get "result").isSome ∧ resp.get "error" = none)
        ∨ ((resp.get "error").isSome ∧ resp.get "result" = none))
      ∧ resp.get "id" = some (match input with
          | none => Json.null
          | some req => (req.get "id").getD Json.null)
      ∧ (input = none → errorCode resp = some (Json.num (-32700)))) := by
  constructor
  · intro s input resp h
    cases input with
    | none =>
      simp only [processRequestSync, Option.some.injEq] at h
      subst h
      exact ⟨Or.inr ⟨rfl, rfl⟩, rfl, fun _ => rfl⟩
    | some req =>
      cases req
      case obj fields =>
        simp only [processRequestSync] at h
        repeat' split at h
        all_goals
          first
          | exact Option.noConfusion h
          | (cases h
             exact ⟨(createResponseSync_shape _ _ _).1, (createResponseSync_shape _ _ _).2,
               fun hc => by cases hc⟩)
          | (obtain ⟨r, e, hre⟩ := handleToolsCallSync_is_response s
               (((Json.obj fields).get "id").getD Json.null)
               (((Json.obj fields).get "params").getD (Json.obj []))
             rw [hre] at h
             cases h
             exact ⟨(createResponseSync_shape _ _ _).1, (createResponseSync_shape _ _ _).2,
               fun hc => by cases hc⟩)
      all_goals
        simp only [processRequestSync] at h
        exact Option.noConfusion h
  · intro s input resp h
    cases input with
    | none =>
      simp only [processRequestAsync, Option.some.injEq] at h
      subst h
      exact ⟨Or.inr ⟨rfl, rfl⟩, rfl, fun _ => rfl⟩
    | some req =>
      cases req
      case obj fields =>
        simp only [processRequestAsync] at h
        repeat' split at h
        all_goals
          first
          | exact Option.noConfusion h
          | (cases h
             exact ⟨(createResponseAsync_shape _ _ _).1, (createResponseAsync_shape _ _ _).2,
               fun hc => by cases hc⟩)
          | (obtain ⟨r, e, hre⟩ := handleToolsCallAsync_is_response s
               (((Json.obj fields).get "id").getD Json.null)
               (((Json.obj fields).get "params").getD (Json.obj []))
             rw [hre] at h
             cases h
             exact ⟨(createResponseAsync_shape _ _ _).1, (createResponseAsync_shape _ _ _).2,
               fun hc => by cases hc⟩)
          | (obtain ⟨r, e, hre⟩ := handlePromptGetAsync_is_response s
               (((Json.obj fields).get "id").getD Json.null)
               (((Json.obj fields).get "params").getD (Json.obj []))
             rw [hre] at h
             cases h
             exact ⟨(createResponseAsync_shape _ _ _).1, (createResponseAsync_shape _ _ _).2,
               fun hc => by cases hc⟩)
      all_goals
        simp only [processRequestAsync] at h
        exact Option.noConfusion h

/-- C5 witness: the invariant at a malformed input (the -32700 envelope
with a null id) and at a concrete tools/call request. -/
theorem claim_C5_envelope_invariant_witness :
    (((createResponseSync Json.null Json.null
        (some (createError (-32700) "Parse error"))).get "result").isSome
      ∧ (createResponseSync Json.null Json.null
          (some (createError (-32700) "Parse error"))).get "error" = none
      ∨ ((createResponseSync Json.null Json.null
          (some (createError (-32700) "Parse error"))).get "error").isSome
        ∧ (createResponseSync Json.null Json.null
            (some (createError (-32700) "Parse error"))).get "result" = none)
    ∧ (match processRequestAsync asyncPromptTestServer (some (Json.obj
        [("jsonrpc", Json.str "2.0"), ("id", Json.num 9),
         ("method", Json.str "prompts/list")])) with
       | some resp => resp.get "id" = some (Json.num 9)
       | none => False) :=
  ⟨((claim_C5_envelope_invariant.1 calculatorServer none
      (createResponseSync Json.null Json.null
        (some (createError (-32700) "Parse error"))) rfl).1),
   (claim_C5_envelope_invariant.2 asyncPromptTestServer (some (Json.obj
      [("jsonrpc", Json.str "2.0"), ("id", Json.num 9),
       ("method", Json.str "prompts/list")]))
      (createResponseAsync (Json.num 9) (discoverPromptsAsync asyncPromptTestServer) none)
      rfl).2.1⟩

theorem char_toNat_inj {a b : Char} (h : a.toNat = b.toNat) : a = b :=
  Char.eq_of_val_eq (UInt32.ext h)

theorem char_ofNat_toNat (m : Nat) (h1 : m < 55296) : (Char.ofNat m).toNat = m := by
  have hv : m.isValidChar := Or.inl h1
  unfold Char.ofNat
  rw [dif_pos hv]
  unfold Char.ofNatAux
  simp [Char.toNat, UInt32.toNat]

theorem pyIsSpace_eq_false_of_ge (d : Char) (hd : 33 ≤ d.toNat) : pyIsSpace d = false := by
  simp only [pyIsSpace, Bool.or_eq_false_iff, beq_eq_false_iff_ne]
  refine ⟨⟨⟨⟨⟨?_, ?_⟩, ?_⟩, ?_⟩, ?_⟩, ?_⟩ <;>
    (intro heq; subst heq; exact absurd hd (by decide))

theorem toLower_toNat (c : Char) :
    (Char.toLower c).toNat = if c.toNat ≥ 65 ∧ c.toNat ≤ 90 then c.toNat + 32 else c.toNat := by
  unfold Char.toLower
  by_cases h : c.toNat ≥ 65 ∧ c.toNat ≤ 90
  · simp only [h, if_true, and_self, if_pos]
    exact char_ofNat_toNat _ (by omega)
  · simp only [h, if_false, if_neg h]

theorem toLower_idem (c : Char) : Char.toLower (Char.toLower c) = Char.toLower c := by
  apply char_toNat_inj
  rw [toLower_toNat, toLower_toNat]
  by_cases h : c.toNat ≥ 65 ∧ c.toNat ≤ 90
  · rw [if_pos h, if_neg (show ¬(c.toNat + 32 ≥ 65 ∧ c.toNat + 32 ≤ 90) from by omega)]
  · rw [if_neg h, if_neg h]

theorem pyIsSpace_toLower (c : Char) : pyIsSpace (Char.toLower c) = pyIsSpace c := by
  by_cases h : c.toNat ≥ 65 ∧ c.toNat ≤ 90
  · have h1 : pyIsSpace (Char.toLower c) = false := by
      apply pyIsSpace_eq_false_of_ge
      rw [toLower_toNat, if_pos h]
      omega
    have h2 : pyIsSpace c = false := pyIsSpace_eq_false_of_ge c (by omega)
    rw [h1, h2]
  · have : Char.toLower c = c := by
      apply char_toNat_inj
      rw [toLower_toNat, if_neg h]
    rw [this]


theorem dropWhile_head_not (p : Char → Bool) (l : List Char) :
    ∀ ch, (l.dropWhile p).head? = some ch → p ch = false := by
  induction l with
  | nil => intro ch h; exact absurd h (by simp)
  | cons c rest ih =>
    intro ch h
    by_cases hp : p c
    · rw [List.dropWhile_cons, if_pos hp] at h
      exact ih ch h
    · rw [List.dropWhile_cons, if_neg hp] at h
      simp only [List.head?_cons, Option.some.injEq] at h
      subst h
      exact Bool.eq_false_iff.mpr hp

theorem dropWhile_getLast_not (p : Char → Bool) (l : List Char)
    (hl : ∀ ch, l.getLast? = some ch → p ch = false) :
    ∀ ch, (l.dropWhile p).getLast? = some ch → p ch = false := by
  induction l with
  | nil => intro ch h; exact absurd h (by simp)
  | cons c rest ih =>
    intro ch h
    by_cases hp : p c
    · rw [List.dropWhile_cons, if_pos hp] at h
      refine ih ?_ ch h
      intro ch2 hch2
      apply hl
      cases rest with
      | nil => exact absurd hch2 (by simp)
      | cons d ds => rw [List.getLast?_cons_cons]; exact hch2
    · rw [List.dropWhile_cons, if_neg hp] at h
      exact hl ch h

theorem dropWhile_eq_self_of_head (p : Char → Bool) (l : List Char)
    (h : ∀ ch, l.head? = some ch → p ch = false) : l.dropWhile p = l := by
  cases l with
  | nil => rfl
  | cons c rest => rw [List.dropWhile_cons, if_neg (by rw [h c rfl]; exact Bool.false_ne_true)]

theorem stripChars_head_clean (l : List Char) :
    ∀ ch, (stripChars l).head? = some ch → pyIsSpace ch = false := by
  intro ch hch
  unfold stripChars at hch
  rw [List.head?_reverse] at hch
  refine dropWhile_getLast_not pyIsSpace _ ?_ ch hch
  intro ch2 hch2
  rw [List.getLast?_reverse] at hch2
  exact dropWhile_head_not pyIsSpace l ch2 hch2

theorem stripChars_getLast_clean (l : List Char) :
    ∀ ch, (stripChars l).getLast? = some ch → pyIsSpace ch = false := by
  intro ch hch
  unfold stripChars at hch
  rw [List.getLast?_reverse] at hch
  exact dropWhile_head_not pyIsSpace _ ch hch

theorem stripChars_eq_self (l : List Char)
    (h1 : ∀ ch, l.head? = some ch → pyIsSpace ch = false)
    (h2 : ∀ ch, l.getLast? = some ch → pyIsSpace ch = false) : stripChars l = l := by
  unfold stripChars
  rw [dropWhile_eq_self_of_head _ l h1]
  rw [dropWhile_eq_self_of_head _ l.reverse
    (fun ch hch => h2 ch (by rwa [List.head?_reverse] at hch))]
  exact List.reverse_reverse l

theorem token_trimmed (c : List Char) :
    stripChars (lowerChars (stripChars c)) = lowerChars (stripChars c) := by
  apply stripChars_eq_self
  · intro ch hch
    rw [lowerChars, List.head?_map] at hch
    obtain ⟨ch0, hch0, hlow⟩ := Option.map_eq_some'.mp hch
    rw [← hlow, pyIsSpace_toLower]
    exact stripChars_head_clean c ch0 hch0
  · intro ch hch
    rw [lowerChars, List.getLast?_map] at hch
    obtain ⟨ch0, hch0, hlow⟩ := Option.map_eq_some'.mp hch
    rw [← hlow, pyIsSpace_toLower]
    exact stripChars_getLast_clean c ch0 hch0

theorem token_lowered (c : List Char) :
    lowerChars (lowerChars c) = lowerChars c := by
  unfold lowerChars
  rw [List.map_map]
  exact List.map_congr_left (fun a _ => toLower_idem a)

theorem splitTokens_shape {t : List Char} {text : List Char} (h : t ∈ splitTokens text) :
    ∃ piece, stripChars piece ≠ [] ∧ t = lowerChars (stripChars piece) := by
  unfold splitTokens at h
  obtain ⟨piece, hmem, hf⟩ := List.mem_filterMap.mp h
  dsimp only at hf
  by_cases hs : stripChars piece = []
  · rw [if_pos hs] at hf
    exact absurd hf (by simp)
  · rw [if_neg hs] at hf
    refine ⟨piece, hs, ?_⟩
    cases hf
    rfl

theorem lineCategoryTokens_shape {t ln : List Char} (h : t ∈ lineCategoryTokens ln) :
    ∃ piece, stripChars piece ≠ [] ∧ t = lowerChars (stripChars piece) := by
  unfold lineCategoryTokens at h
  rcases List.mem_append.mp h with h | h
  · unfold lineLabelTokens at h
    cases hm : matchCategoryLabel ln <;> rw [hm] at h
    · exact absurd h (List.not_mem_nil t)
    · exact splitTokens_shape h
  · obtain ⟨b, hb, hbt⟩ := List.mem_flatMap.mp h
    exact splitTokens_shape hbt


theorem dedupFirstSeen_sound :
    ∀ (l seen : List (List Char)),
      (dedupFirstSeen l seen).Nodup
      ∧ ∀ x ∈ dedupFirstSeen l seen, x ∉ seen ∧ x ∈ l := by
  intro l
  induction l with
  | nil => intro seen; exact ⟨List.nodup_nil, by intro x hx; exact absurd hx (List.not_mem_nil x)⟩
  | cons c rest ih =>
    intro seen
    by_cases hc : c ∈ seen
    · rw [dedupFirstSeen, if_pos hc]
      obtain ⟨hn, hp⟩ := ih seen
      exact ⟨hn, fun x hx => ⟨(hp x hx).1, List.mem_cons_of_mem _ (hp x hx).2⟩⟩
    · rw [dedupFirstSeen, if_neg hc]
      obtain ⟨hn, hp⟩ := ih (c :: seen)
      refine ⟨List.nodup_cons.mpr ⟨?_, hn⟩, ?_⟩
      · intro hmem
        exact (hp c hmem).1 (List.mem_cons_self _ _)
      · intro x hx
        rcases List.mem_cons.mp hx with hx | hx
        · subst hx
          exact ⟨hc, List.mem_cons_self _ _⟩
        · refine ⟨fun hs => (hp x hx).1 (List.mem_cons_of_mem _ hs), List.mem_cons_of_mem _ (hp x hx).2⟩

theorem dedupFirstSeen_eq_self :
    ∀ (l seen : List (List Char)), l.Nodup → (∀ x ∈ l, x ∉ seen) →
      dedupFirstSeen l seen = l := by
  intro l
  induction l with
  | nil => intro seen _ _; rfl
  | cons c rest ih =>
    intro seen hn hs
    rw [dedupFirstSeen, if_neg (hs c (List.mem_cons_self _ _))]
    rw [ih (c :: seen) (List.nodup_cons.mp hn).2]
    intro x hx
    intro hmem
    rcases List.mem_cons.mp hmem with hx2 | hx2
    · subst hx2
      exact (List.nodup_cons.mp hn).1 hx
    · exact hs x (List.mem_cons_of_mem _ hx) hx2

theorem ciStartsWith_of_append (p1 p2 l : List Char)
    (h : ciStartsWith (p1 ++ p2) l = true) : ciStartsWith p1 l = true := by
  induction p1 generalizing l with
  | nil => rfl
  | cons a p1t ih =>
    cases l with
    | nil => exact absurd h (by simp [ciStartsWith])
    | cons c rest =>
      simp only [List.cons_append, ciStartsWith, Bool.and_eq_true] at h ⊢
      exact ⟨h.1, ih rest h.2⟩

theorem containsCI_of_sw {pat l : List Char} (h : ciStartsWith pat l = true) :
    containsCI pat l = true := by
  cases l with
  | nil => exact h
  | cons c rest => simp only [containsCI, h, Bool.true_or]

theorem containsCI_cons {pat : List Char} {c : Char} {rest : List Char}
    (h : containsCI pat rest = true) : containsCI pat (c :: rest) = true := by
  simp only [containsCI, h, Bool.or_true]

theorem containsCI_dropWhile {pat : List Char} (p : Char → Bool) (l : List Char)
    (h : containsCI pat (l.dropWhile p) = true) : containsCI pat l = true := by
  induction l with
  | nil => simpa using h
  | cons c rest ih =>
    by_cases hp : p c
    · rw [List.dropWhile_cons, if_pos hp] at h
      exact containsCI_cons (ih h)
    · rwa [List.dropWhile_cons, if_neg hp] at h

theorem matchCategoryLabel_contains {ln r : List Char}
    (h : matchCategoryLabel ln = some r) : containsCI "categor".data ln = true := by
  unfold matchCategoryLabel at h
  by_cases h1 : ciStartsWith "category:".data (ln.dropWhile pyIsSpace) = true
  · exact containsCI_dropWhile pyIsSpace ln
      (containsCI_of_sw (ciStartsWith_of_append "categor".data "y:".data _ h1))
  · rw [if_neg h1] at h
    by_cases h2 : ciStartsWith "categories:".data (ln.dropWhile pyIsSpace) = true
    · exact containsCI_dropWhile pyIsSpace ln
        (containsCI_of_sw (ciStartsWith_of_append "categor".data "ies:".data _ h2))
    · rw [if_neg h2] at h
      exact absurd h (by simp)

theorem bracketScanAux_nil_of_not_contains :
    ∀ (fuel : Nat) (l : List Char), containsCI "categor".data l = false →
      bracketScanAux fuel l = [] := by
  intro fuel
  induction fuel with
  | zero => intro l _; rfl
  | succ n ih =>
    intro l hl
    cases l with
    | nil => rfl
    | cons c rest =>
      have hrest : containsCI "categor".data rest = false := by
        by_cases h : containsCI "categor".data rest = true
        · rw [containsCI_cons h] at hl
          exact absurd hl (by simp)
        · exact Bool.eq_false_iff.mpr h
      by_cases hc : c = '['
      · subst hc
        by_cases h1 : ciStartsWith "category:".data rest = true
        · have : containsCI "categor".data rest = true :=
            containsCI_of_sw (ciStartsWith_of_append "categor".data "y:".data _ h1)
          rw [this] at hrest
          exact absurd hrest (by simp)
        · by_cases h2 : ciStartsWith "categories:".data rest = true
          · have : containsCI "categor".data rest = true :=
              containsCI_of_sw (ciStartsWith_of_append "categor".data "ies:".data _ h2)
            rw [this] at hrest
            exact absurd hrest (by simp)
          · rw [bracketScanAux, if_pos rfl, if_neg h1, if_neg h2]
            exact ih rest hrest
      · rw [bracketScanAux, if_neg hc]
        exact ih rest hrest

theorem lineCategoryTokens_nil_of_not_contains {ln : List Char}
    (h : containsCI "categor".data ln = false) : lineCategoryTokens ln = [] := by
  unfold lineCategoryTokens
  have hlab : lineLabelTokens ln = [] := by
    unfold lineLabelTokens
    cases hm : matchCategoryLabel ln with
    | none => rfl
    | some r =>
      rw [matchCategoryLabel_contains hm] at h
      exact absurd h (by simp)
  rw [hlab]
  unfold bracketScan
  rw [bracketScanAux_nil_of_not_contains ln.length ln h]
  rfl


theorem splitOnChar_no_sep (sep : Char) (l : List Char) (h : sep ∉ l) :
    splitOnChar sep l = [l] := by
  induction l with
  | nil => rfl
  | cons c rest ih =>
    have hc : ¬(c = sep) := fun hh => h (hh ▸ List.mem_cons_self _ _)
    rw [splitOnChar, if_neg hc, ih (fun hh => h (List.mem_cons_of_mem _ hh))]

theorem splitOnChar_append (sep : Char) (pre rest : List Char) (h : sep ∉ pre) :
    splitOnChar sep (pre ++ sep :: rest) = pre :: splitOnChar sep rest := by
  induction pre with
  | nil => simp [splitOnChar]
  | cons c pt ih =>
    have hc : ¬(c = sep) := fun hh => h (hh ▸ List.mem_cons_self _ _)
    rw [List.cons_append, splitOnChar, if_neg hc,
      ih (fun hh => h (List.mem_cons_of_mem _ hh))]

theorem stripChars_cons_space (l : List Char) : stripChars (' ' :: l) = stripChars l := by
  unfold stripChars
  rw [List.dropWhile_cons, if_pos (by decide)]

theorem stripChars_space : stripChars [' '] = [] := by decide

theorem splitTokens_join (tags : List (List Char))
    (ht : ∀ t ∈ tags, t ≠ [] ∧ stripChars t = t ∧ lowerChars t = t ∧ (',' : Char) ∉ t) :
    splitTokens (' ' :: joinCommaSep tags) = tags := by
  induction tags with
  | nil =>
    decide
  | cons t ts ih =>
    cases ts with
    | nil =>
      obtain ⟨hne, hst, hlo, hcm⟩ := ht t (List.mem_cons_self _ _)
      have hns : (',' : Char) ∉ (' ' :: t) := by
        intro hm
        rcases List.mem_cons.mp hm with hh | hh
        · exact absurd hh.symm (by decide)
        · exact hcm hh
      unfold splitTokens
      rw [show joinCommaSep [t] = t from rfl, splitOnChar_no_sep ',' (' ' :: t) hns]
      simp only [List.filterMap]
      rw [stripChars_cons_space, hst]
      rw [if_neg hne, hlo]
    | cons t2 ts2 =>
      obtain ⟨hne, hst, hlo, hcm⟩ := ht t (List.mem_cons_self _ _)
      have hns : (',' : Char) ∉ (' ' :: t) := by
        intro hm
        rcases List.mem_cons.mp hm with hh | hh
        · exact absurd hh.symm (by decide)
        · exact hcm hh
      have hjoin : (' ' :: joinCommaSep (t :: t2 :: ts2))
          = (' ' :: t) ++ ',' :: (' ' :: joinCommaSep (t2 :: ts2)) := by
        rw [show joinCommaSep (t :: t2 :: ts2) = t ++ ',' :: ' ' :: joinCommaSep (t2 :: ts2)
          from rfl]
        simp
      unfold splitTokens
      rw [hjoin, splitOnChar_append ',' (' ' :: t) _ hns]
      simp only [List.filterMap]
      rw [stripChars_cons_space, hst, if_neg hne, hlo]
      have := ih (fun x hx => ht x (List.mem_cons_of_mem _ hx))
      unfold splitTokens at this
      rw [this]


theorem bracketScanAux_nil_of_no_bracket :
    ∀ (fuel : Nat) (l : List Char), ('[' : Char) ∉ l → bracketScanAux fuel l = [] := by
  intro fuel
  induction fuel with
  | zero => intro l _; rfl
  | succ n ih =>
    intro l hl
    cases l with
    | nil => rfl
    | cons c rest =>
      have hc : ¬(c = '[') := fun hh => hl (hh ▸ List.mem_cons_self _ _)
      rw [bracketScanAux, if_neg hc]
      exact ih rest (fun hh => hl (List.mem_cons_of_mem _ hh))

theorem joinCommaSep_no_bracket (tags : List (List Char))
    (h : ∀ t ∈ tags, ('[' : Char) ∉ t) : ('[' : Char) ∉ joinCommaSep tags := by
  induction tags with
  | nil => exact List.not_mem_nil _
  | cons t ts ih =>
    cases ts with
    | nil => exact h t (List.mem_cons_self _ _)
    | cons t2 ts2 =>
      rw [show joinCommaSep (t :: t2 :: ts2) = t ++ ',' :: ' ' :: joinCommaSep (t2 :: ts2)
        from rfl]
      intro hm
      rcases List.mem_append.mp hm with hm | hm
      · exact h t (List.mem_cons_self _ _) hm
      · rcases List.mem_cons.mp hm with hm | hm
        · exact absurd hm.symm (by decide)
        · rcases List.mem_cons.mp hm with hm | hm
          · exact absurd hm.symm (by decide)
          · exact ih (fun x hx => h x (List.mem_cons_of_mem _ hx)) hm

theorem renderCategoriesLine_no_bracket (tags : List (List Char))
    (h : ∀ t ∈ tags, ('[' : Char) ∉ t) :
    ('[' : Char) ∉ renderCategoriesLine tags := by
  unfold renderCategoriesLine
  intro hm
  rcases List.mem_append.mp hm with hm | hm
  · exact absurd hm (by decide)
  · exact joinCommaSep_no_bracket tags h hm

theorem matchCategoryLabel_render (tags : List (List Char)) :
    matchCategoryLabel (renderCategoriesLine tags) = some (' ' :: joinCommaSep tags) := rfl

theorem extract_render (tags : List (List Char))
    (ht : ∀ t ∈ tags, t ≠ [] ∧ stripChars t = t ∧ lowerChars t = t
      ∧ (',' : Char) ∉ t ∧ ('[' : Char) ∉ t)
    (hn : tags.Nodup) :
    extractCategoriesLines [renderCategoriesLine tags] = tags := by
  unfold extractCategoriesLines
  have h1 : lineCategoryTokens (renderCategoriesLine tags) = tags := by
    unfold lineCategoryTokens
    unfold lineLabelTokens
    rw [matchCategoryLabel_render]
    dsimp only
    rw [splitTokens_join tags (fun t htm =>
      ⟨(ht t htm).1, (ht t htm).2.1, (ht t htm).2.2.1, (ht t htm).2.2.2.1⟩)]
    unfold bracketScan
    rw [bracketScanAux_nil_of_no_bracket _ _
      (renderCategoriesLine_no_bracket tags (fun t htm => (ht t htm).2.2.2.2))]
    simp
  have h2 : ([renderCategoriesLine tags]).flatMap lineCategoryTokens = tags := by
    simp [List.flatMap, h1]
  rw [h2]
  exact dedupFirstSeen_eq_self tags [] hn (fun x _ => List.not_mem_nil x)


/-- C8: category extraction always returns a deduplicated list (first-seen
order, as the seen-set loop produces) of non-empty, trimmed, lowercased
tokens; a text with no occurrence of the label (no case-insensitive
categor anywhere) yields the empty list rather than an error; and the
extractor is idempotent on its own output — re-extracting from a canonical
label line holding exactly an already-lowercased, trimmed, deduplicated
tag list returns that same list. -/
theorem claim_C8_category_extraction_algebra :
    (∀ lines : List (List Char),
      (extractCategoriesLines lines).Nodup
      ∧ ∀ t ∈ extractCategoriesLines lines,
          t ≠ [] ∧ stripChars t = t ∧ lowerChars t = t)
    ∧ (∀ lines : List (List Char),
      (∀ ln ∈ lines, containsCI "categor".data ln = false) →
      extractCategoriesLines lines = [])
    ∧ (∀ tags : List (List Char),
      (∀ t ∈ tags, t ≠ [] ∧ stripChars t = t ∧ lowerChars t = t
        ∧ (',' : Char) ∉ t ∧ ('[' : Char) ∉ t) →
      tags.Nodup →
      extractCategoriesLines [renderCategoriesLine tags] = tags) := by
  refine ⟨?_, ?_, extract_render⟩
  · intro lines
    constructor
    · exact (dedupFirstSeen_sound (lines.flatMap lineCategoryTokens) []).1
    · intro t htm
      have hin : t ∈ lines.flatMap lineCategoryTokens :=
        ((dedupFirstSeen_sound (lines.flatMap lineCategoryTokens) []).2 t htm).2
      obtain ⟨ln, hln, htl⟩ := List.mem_flatMap.mp hin
      obtain ⟨piece, hpne, hpt⟩ := lineCategoryTokens_shape htl
      subst hpt
      refine ⟨?_, token_trimmed piece, token_lowered (stripChars piece)⟩
      intro hmap
      exact hpne (by simpa [lowerChars] using hmap)
  · intro lines hno
    unfold extractCategoriesLines
    have hfm : lines.flatMap lineCategoryTokens = [] := by
      induction lines with
      | nil => rfl
      | cons l ls ih =>
        rw [List.flatMap_cons,
          lineCategoryTokens_nil_of_not_contains (hno l (List.mem_cons_self _ _)),
          ih (fun x hx => hno x (List.mem_cons_of_mem _ hx))]
        rfl
    rw [hfm]
    rfl

/-- C8 witness: the round trip on the concrete tag list of the calculator
prompt docstrings, the empty result on an unlabelled docstring line, and
deduplication on the dialog prompt docstring. -/
theorem claim_C8_category_extraction_witness :
    extractCategoriesLines [renderCategoriesLine ["math".data, "calculation".data]]
      = ["math".data, "calculation".data]
    ∧ extractCategoriesLines ["Add two numbers.".data] = []
    ∧ (extractCategoriesLines (pySplitlines promptDialogAsync.doc.data)).Nodup :=
  ⟨claim_C8_category_extraction_algebra.2.2 ["math".data, "calculation".data]
      (by decide) (by decide),
   claim_C8_category_extraction_algebra.2.1 ["Add two numbers.".data] (by decide),
   (claim_C8_category_extraction_algebra.1 (pySplitlines promptDialogAsync.doc.data)).1⟩


end UMCP
